import Mathlib

/-!
# Cothority: round admission and the skipchain service

A shallow embedding of

* `proto/sign/round.go`  (`RoundSetup`, the round-type table, `Round.Add`,
  `Round.Sub`), and
* `services/skipchain/skipchain.go` (`proposeSkipBlock`, `ProposeSkipBlock`,
  `updateNewSkipBlock`, `GetUpdateChain`, `ForwardSignature`,
  `verifyNewSkipBlock`, `startPropagation`),

followed by theorems about these definitions.

Conventions of the embedding.

* Go `int` is a 64-bit two's-complement integer.  Values are carried as `Int`;
  every Go addition is followed by `wrap64`.
* A Go `[]byte` is a `List Nat` (one natural number per byte); `nil` and the
  empty slice are both `[]`, which is also how `len`, `bytes.Equal` and the
  conversion to a map key see them.
* A Go `map` is a function into `Option`.  Every pointer stored in a map is
  taken to be an object of its own, and a block handed to the service is a
  fresh object (as produced by message decoding), so that a block can be
  represented by its value.
* A Go function that mutates the receiver returns the new receiver state next
  to its results.  A run-time panic is an explicit outcome.
* `make` and `append` panic when asked for a slice beyond the slice limit of
  the process (`sliceLimit`): what the platform can allocate, at most the
  2^45 elements of 8 bytes a 64-bit Go runtime allows.
* The points of `abstract.Point` are mutable objects that `Round.Add` and
  `Round.Sub` reach through references which may be nil or equal; they live in
  a heap of group elements.
* Two concurrent calls of `RoundSetup` are interleavings of their sections,
  each section being one atomic step on the node.
-/

namespace Cothority

/-! ## Machine integers -/

/-- Largest value of a Go `int` on a 64-bit platform. -/
def maxInt64 : Int := 9223372036854775807

/-- Smallest value of a Go `int` on a 64-bit platform. -/
def minInt64 : Int := -9223372036854775808

/-- Two's-complement reduction of a mathematical integer to a Go `int`. -/
def wrap64 (x : Int) : Int :=
  (x + 9223372036854775808) % 18446744073709551616 - 9223372036854775808

/-- Go `a + b` on `int`. -/
def intAdd (a b : Int) : Int := wrap64 (a + b)

/-- The helper `max` on `int` used by `round.go`; declared elsewhere in the
package, it returns the larger of its two arguments. -/
def intMax (a b : Int) : Int := if a < b then b else a

/-- The largest length of a slice of 8-byte elements (an `int`, a pointer) for
which `make` and `append` of a 64-bit Go runtime do not panic: the runtime
refuses more than 2^48 bytes, that is 2^45 such elements. -/
def goMaxSliceLen : Int := 35184372088832

/-- The slice limit of the running process: the largest length up to which
`make` and `append` of slices of 8-byte elements succeed.  It is a property of
the platform (`maxSliceLen`: what the process can get, which depends on its
memory) and never more than the runtime allows.  A `make` or `append` beyond
it does not return: it ends in the run-time panic `len out of range` (`cap out
of range` for a capacity). -/
def sliceLimit (maxSliceLen : Nat) : Int :=
  if (maxSliceLen : Int) < goMaxSliceLen then (maxSliceLen : Int) else goMaxSliceLen

namespace Sign

/-! ## `proto/sign/round.go` -/

/-- The constant `FIRST_ROUND`. -/
def FIRST_ROUND : Int := 1

/-- The type `RoundType` is a Go `int`. -/
abbrev RoundType := Int

def EmptyRT : RoundType := 0
def ViewChangeRT : RoundType := 1
def AddRT : RoundType := 2
def RemoveRT : RoundType := 3
def ShutdownRT : RoundType := 4
def NoOpRT : RoundType := 5
def SigningRT : RoundType := 6

/-- Modelled from the spec: the type `Vote` (its declaration is outside the
shown sources).  `RoundSetup` reads two of its fields: the declared type
`Type` (here `Typ`) and the pointer `Vcv` to a view-change vote, `none` for a
nil pointer; the pointed-to vote is represented by the view it proposes. -/
structure Vote where
  Typ : Int
  Vcv : Option Int
deriving DecidableEq, Repr

/-- Modelled from the spec: the type `AnnouncementMessage`, of which
`RoundSetup` reads `RoundNbr` and the optional `Vote`. -/
structure AnnouncementMessage where
  RoundNbr : Int
  Vote : Option Vote
deriving DecidableEq, Repr

/-- The fields of `Round` that `RoundSetup` writes.  `Commit` stands for the
commitment material that `initCommitCrypto` installs (`Log`, `X_hat`), and
`BackLink` for the hash written by `SetBackLink`. -/
structure Round where
  Vote : Option Vote
  Children : List String
  Parent : String
  View : Int
  Commit : Nat
  BackLink : List Nat
deriving DecidableEq, Repr

/-- The function `NewRound`: a round with every field at its zero value. -/
def NewRound : Round :=
  { Vote := none, Children := [], Parent := "", View := 0, Commit := 0, BackLink := [] }

/-- Modelled from the spec: the collaborators of `RoundSetup` whose code is
outside the shown sources.  `Children`, `Parent` and `IsRoot` are the node's
topology for a view; `commitOf` is the commitment material that
`initCommitCrypto` installs in the round, `backLinkOf` the back-link that
`SetBackLink` computes for it; `maxSliceLen` is the largest length of a
`[]RoundType` the process can allocate (see `sliceLimit`). -/
structure Topology where
  Children : Int → List String
  Parent : Int → String
  IsRoot : Int → Bool
  commitOf : Int → Nat
  backLinkOf : Int → List Nat
  maxSliceLen : Nat

/-- The fields of `Node` that `RoundSetup` reads or writes. -/
structure Node where
  ChangingView : Bool
  LastSeenRound : Int
  RoundTypes : List RoundType
  Rounds : Int → Option Round
  RoundsAsRoot : Int
  Round : Int

/-- What a call of `RoundSetup` ends with: the returned `error` (`nil`,
`ChangingViewError`, `ErrPastRound`), the run-time panic of an out-of-range
index into `RoundTypes`, or the run-time panic of `make` or `append` asked for
a slice beyond the limit (`len out of range`). -/
inductive SetupResult where
  | nil
  | ChangingViewError
  | ErrPastRound
  | indexOutOfRange
  | lenOutOfRange
deriving DecidableEq, Repr

/-- The condition of line 92:
`sn.ChangingView && am.Vote != nil && am.Vote.Vcv == nil`. -/
def viewChangeGuard (sn : Node) (am : AnnouncementMessage) : Bool :=
  sn.ChangingView &&
    (match am.Vote with
     | none => false
     | some v => v.Vcv.isNone)

/-- Line 108, the allocations: when the table has to grow, `make` is asked
for `max(len(sn.RoundTypes), roundNbr + 1)` entries and `append` for a slice
of the old length plus that many; either panics beyond the slice limit. -/
def allocationFails (tp : Topology) (rts : List RoundType) (roundNbr : Int) : Bool :=
  decide ((rts.length : Int) ≤ roundNbr) &&
    (decide (sliceLimit tp.maxSliceLen < intMax (rts.length : Int) (intAdd roundNbr 1)) ||
     decide (sliceLimit tp.maxSliceLen <
       (rts.length : Int) + intMax (rts.length : Int) (intAdd roundNbr 1)))

/-- Lines 106-109: make space for the round type; the table after the
`append`, when its allocations succeed. -/
def growRoundTypes (rts : List RoundType) (roundNbr : Int) : List RoundType :=
  if (rts.length : Int) ≤ roundNbr then
    rts ++ List.replicate (intMax (rts.length : Int) (intAdd roundNbr 1)).toNat EmptyRT
  else rts

/-- Lines 110-115: the round type recorded for the announcement. -/
def roundTypeOf (am : AnnouncementMessage) : RoundType :=
  match am.Vote with
  | none => SigningRT
  | some v => v.Typ

/-- Lines 99-116, the first section under `roundmu`: the stale-round check,
the growth of `RoundTypes` and the write to `RoundTypes[roundNbr]`. -/
def admitSection (tp : Topology) (sn : Node) (am : AnnouncementMessage) : Node × SetupResult :=
  let roundNbr := am.RoundNbr
  if roundNbr ≤ sn.LastSeenRound then (sn, SetupResult.ErrPastRound)
  else if allocationFails tp sn.RoundTypes roundNbr then (sn, SetupResult.lenOutOfRange)
  else
    let rts := growRoundTypes sn.RoundTypes roundNbr
    if 0 ≤ roundNbr ∧ roundNbr < (rts.length : Int) then
      ({ sn with RoundTypes := rts.set roundNbr.toNat (roundTypeOf am) }, SetupResult.nil)
    else ({ sn with RoundTypes := rts }, SetupResult.indexOutOfRange)

/-- Lines 118-124: the new round and its wiring for the view. -/
def installRound (tp : Topology) (sn : Node) (view : Int) (am : AnnouncementMessage) : Node :=
  let roundNbr := am.RoundNbr
  let r : Round :=
    { NewRound with
      Commit := tp.commitOf roundNbr
      Vote := am.Vote
      Children := tp.Children view
      Parent := tp.Parent view
      View := view }
  { sn with Rounds := fun k => if k = roundNbr then some r else sn.Rounds k }

/-- Lines 126-129, the second section under `roundmu`. -/
def updateLastSeen (sn : Node) (roundNbr : Int) : Node :=
  { sn with LastSeenRound := intMax sn.LastSeenRound roundNbr }

/-- Lines 131-140: the bookkeeping of the root. -/
def rootSection (tp : Topology) (sn : Node) (view : Int) (roundNbr : Int) : Node :=
  if tp.IsRoot view then
    { sn with
      RoundsAsRoot := intAdd sn.RoundsAsRoot 1
      Round := roundNbr
      Rounds := fun k =>
        if k = roundNbr then
          (sn.Rounds k).map (fun r => { r with BackLink := tp.backLinkOf roundNbr })
        else sn.Rounds k }
  else sn

/-- The function `RoundSetup`. -/
def RoundSetup (tp : Topology) (sn : Node) (view : Int) (am : AnnouncementMessage) :
    Node × SetupResult :=
  if viewChangeGuard sn am then (sn, SetupResult.ChangingViewError)
  else
    match admitSection tp sn am with
    | (sn1, SetupResult.nil) =>
      let sn2 := installRound tp sn1 view am
      let sn3 := updateLastSeen sn2 am.RoundNbr
      (rootSection tp sn3 view am.RoundNbr, SetupResult.nil)
    | (sn1, r) => (sn1, r)

/-- A node that has admitted no round yet: every field at its zero value. -/
def freshNode : Node :=
  { ChangingView := false, LastSeenRound := 0, RoundTypes := [],
    Rounds := fun _ => none, RoundsAsRoot := 0, Round := 0 }

/-- Submit announcements one after another, each to the state the previous
call left; the list of results, in order of submission. -/
def submitAll (tp : Topology) (view : Int) : Node → List AnnouncementMessage → List SetupResult
  | _, [] => []
  | sn, am :: rest =>
    let out := RoundSetup tp sn view am
    out.2 :: submitAll tp view out.1 rest

/-- The state after submitting a list of announcements. -/
def stateAfter (tp : Topology) (view : Int) : Node → List AnnouncementMessage → Node
  | sn, [] => sn
  | sn, am :: rest => stateAfter tp view (RoundSetup tp sn view am).1 rest

end Sign

namespace Skipchain

/-! ## `services/skipchain/skipchain.go` -/

/-- The type `SkipBlockID` is a `[]byte`. -/
abbrev SkipBlockID := List Nat

/-- Modelled from the spec: `SkipBlockID.IsNull` (declared outside the shown
sources): the identifier is nil or empty. -/
def IsNull (sbid : SkipBlockID) : Bool := sbid.length == 0

/-- Modelled from the spec: the type `VerifierID`, an identifier selecting the
verifier policy. -/
abbrev VerifierID := Nat

/-- Modelled from the spec: the constant `VerifyNone`, the identifier of the
baseline policy. -/
def VerifyNone : VerifierID := 0

/-- Modelled from the spec: a member of a roster (`network.Entity`). -/
abbrev Entity := Nat

/-- Modelled from the spec: the type `BlockLink`, a hash and a signature. -/
structure BlockLink where
  Hash : SkipBlockID
  Signature : List Nat
deriving DecidableEq, Repr

/-- Modelled from the spec: `NewBlockLink`, a link with nothing filled in. -/
def NewBlockLink : BlockLink := { Hash := [], Signature := [] }

/-- Modelled from the spec: the type `SkipBlock` (declared outside the shown
sources), with the fields the service reads or writes and the payload `Data`.
`EntityList` is the list `EntityList.List` of the roster. -/
structure SkipBlock where
  Index : Int
  Height : Int
  MaximumHeight : Int
  VerifierId : VerifierID
  ParentBlock : SkipBlockID
  BackLink : List SkipBlockID
  ForwardLink : List BlockLink
  ChildSL : Option BlockLink
  Hash : SkipBlockID
  EntityList : List Entity
  Signature : List Nat
  Data : List Nat
deriving DecidableEq, Repr

/-- The errors returned by the service.  `transport` carries the error of the
collaborator that failed (`sda.CreateServiceMessage` or `SendRaw`). -/
inductive SkipError where
  | couldntFindLatestBlock
  | verificationError
  | couldntFindLatestSkipblock
  | missingBlockInForwardChain
  | didntFindSkipBlock
  | couldntVerifySignature
  | notInBacklinks
  | newSkipBlockNotAccepted
  | noValidUpdatePath
  | transport (code : Nat)
  | didntFindLatestBlock
deriving DecidableEq, Repr

/-- Modelled from the spec: the collaborators whose code is outside the shown
sources.  `calculateHash` is the content hash of a block, `VerifySignatures`
tells whether `sb.VerifySignatures()` returns nil, `CreateServiceMessage` and
`SendRaw` return the transport error, if any; `maxSliceLen` is the largest
capacity of a `[]*BlockLink` the process can allocate (see `sliceLimit`). -/
structure Env where
  calculateHash : SkipBlock → SkipBlockID
  VerifySignatures : SkipBlock → Bool
  CreateServiceMessage : SkipBlock → Option Nat
  SendRaw : Entity → SkipBlock → Option Nat
  maxSliceLen : Nat

/-- The table `Service.SkipBlocks`, keyed by the bytes of the identifier. -/
abbrev BlockTable := SkipBlockID → Option SkipBlock

/-- The state of a `Service`: the block table, and the messages handed to the
transport so far (recipient and block, oldest first). -/
structure Service where
  SkipBlocks : BlockTable
  sent : List (Entity × SkipBlock)

/-- The assignment `s.SkipBlocks[string(id)] = b`. -/
def store (t : BlockTable) (id : SkipBlockID) (b : SkipBlock) : BlockTable :=
  fun k => if k = id then some b else t k

/-- The service of `newSkipchainService`: an empty table. -/
def emptyService : Service := { SkipBlocks := fun _ => none, sent := [] }

/-- The reply `ProposedSkipBlockReply`. -/
structure ProposedSkipBlockReply where
  Previous : Option SkipBlock
  Latest : SkipBlock
deriving DecidableEq, Repr

/-- The function `getSkipBlockByID`. -/
def getSkipBlockByID (s : Service) (sbID : SkipBlockID) : Option SkipBlock :=
  s.SkipBlocks sbID

/-- The function `verifyNewSkipBlock`. -/
def verifyNewSkipBlock (latest newest : SkipBlock) : Bool :=
  if newest.VerifierId = VerifyNone then latest.ForwardLink.length == 0
  else false

/-- The function `verifyLinkedSkipBlock`. -/
def verifyLinkedSkipBlock (_latest _newest : SkipBlock) : Bool := true

/-- The loop of `startPropagation` over the roster. -/
def propagateTo (env : Env) (latest : SkipBlock) : List Entity → Service → Service × Option SkipError
  | [], s => (s, none)
  | e :: es, s =>
    match env.CreateServiceMessage latest with
    | some c => (s, some (SkipError.transport c))
    | none =>
      match env.SendRaw e latest with
      | some c => (s, some (SkipError.transport c))
      | none => propagateTo env latest es { s with sent := s.sent ++ [(e, latest)] }

/-- The function `startPropagation`. -/
def startPropagation (env : Env) (s : Service) (latest : SkipBlock) : Service × Option SkipError :=
  propagateTo env latest latest.EntityList s

/-- The buffer `bl` of line 113 after `rand.Read`: 32 bytes, zero where the
source of randomness `rnd` delivered nothing. -/
def randomBackLink (rnd : List Nat) : SkipBlockID :=
  (rnd ++ List.replicate 32 0).take 32

/-- The function `updateNewSkipBlock`.  The pointer `prev` is nil (`none`) or
points to the table entry stored under a key; it is given as that key and the
entry.  Returns the service, the block `prev` points to and the block
`proposed` points to, as they are when the function returns. -/
def updateNewSkipBlock (env : Env) (rnd : List Nat) (s : Service)
    (prev : Option (SkipBlockID × SkipBlock)) (proposed : SkipBlock) :
    Service × Option SkipBlock × SkipBlock :=
  let p1 : SkipBlock := { proposed with Height := 1 }
  let p2 : SkipBlock := { p1 with BackLink := List.replicate p1.Height.toNat [] }
  match prev with
  | none =>
    let p3 : SkipBlock := { p2 with Index := intAdd p2.Index 1 }
    let p4 : SkipBlock := { p3 with BackLink := p3.BackLink.set 0 (randomBackLink rnd) }
    let p5 : SkipBlock := { p4 with Hash := env.calculateHash p4 }
    ({ s with SkipBlocks := store s.SkipBlocks p5.Hash p5 }, none, p5)
  | some (key, pv) =>
    let p3 : SkipBlock := { p2 with Index := intAdd pv.Index 1 }
    let p4 : SkipBlock := { p3 with BackLink := p3.BackLink.set 0 pv.Hash }
    let p5 : SkipBlock := { p4 with Hash := env.calculateHash p4 }
    let pv1 : SkipBlock := { pv with ForwardLink := [{ NewBlockLink with Hash := p5.Hash }] }
    let t1 := store s.SkipBlocks key pv1
    ({ s with SkipBlocks := store t1 p5.Hash p5 }, some pv1, p5)

/-- Lines 69-78 of `proposeSkipBlock`: build the reply and propagate. -/
def replyAndPropagate (env : Env) (s : Service) (prev : Option SkipBlock) (proposed : SkipBlock) :
    Service × Option ProposedSkipBlockReply × Option SkipError :=
  let reply : ProposedSkipBlockReply := { Previous := prev, Latest := proposed }
  match startPropagation env s proposed with
  | (s1, some err) => (s1, none, some err)
  | (s1, none) => (s1, some reply, none)

/-- The function `proposeSkipBlock`; `rnd` is what `rand.Read` delivers if it
is called.  Returns the service, the reply (`none` for nil) and the error
(`none` for nil). -/
def proposeSkipBlock (env : Env) (rnd : List Nat) (s : Service) (latest : SkipBlockID)
    (proposed : SkipBlock) : Service × Option ProposedSkipBlockReply × Option SkipError :=
  if latest.length = 0 then
    let p : SkipBlock := { proposed with VerifierId := VerifyNone }
    let (s1, _, p1) := updateNewSkipBlock env rnd s none p
    let (s2, err) := startPropagation env s1 p1
    (s2, some { Previous := none, Latest := p1 }, err)
  else if !IsNull latest then
    match s.SkipBlocks latest with
    | none => (s, none, some SkipError.couldntFindLatestBlock)
    | some pv =>
      let p : SkipBlock := { proposed with VerifierId := pv.VerifierId }
      if verifyNewSkipBlock pv p then
        let (s1, pv1, p1) := updateNewSkipBlock env rnd s (some (latest, pv)) p
        replyAndPropagate env s1 pv1 p1
      else (s, none, some SkipError.verificationError)
  else replyAndPropagate env s none proposed

/-- The loop of `GetUpdateChain` (lines 147-155), run for at most `fuel` tests
of its condition; `none` when the fuel is used up before the loop ends. -/
def updateChainLoop (t : BlockTable) : Nat → SkipBlock → List SkipBlock →
    Option (Except SkipError (List SkipBlock))
  | 0, _, _ => none
  | fuel + 1, block, blocks =>
    match block.ForwardLink with
    | [] => some (Except.ok blocks)
    | link :: _ =>
      match t link.Hash with
      | none => some (Except.error SkipError.missingBlockInForwardChain)
      | some b => updateChainLoop t fuel b (blocks ++ [b])

/-- The function `GetUpdateChain`, with fuel for its loop. -/
def GetUpdateChain (s : Service) (fuel : Nat) (latest : SkipBlockID) :
    Option (Except SkipError (List SkipBlock)) :=
  match getSkipBlockByID s latest with
  | none => some (Except.error SkipError.couldntFindLatestSkipblock)
  | some block => updateChainLoop s.SkipBlocks fuel block [block]

/-- The request `ForwardSignature`. -/
structure ForwardSignatureRequest where
  ToUpdate : SkipBlockID
  Latest : SkipBlock
deriving DecidableEq, Repr

/-- The run-time panics `ForwardSignature` can end with. -/
inductive Panic where
  | indexOutOfRange
  | makesliceCapOutOfRange
deriving DecidableEq, Repr

/-- What a call of `ForwardSignature` ends with. -/
inductive Outcome where
  | ok (b : SkipBlock)
  | error (e : SkipError)
  | panic (p : Panic)
deriving DecidableEq, Repr

/-- Lines 253-259 of `ForwardSignature`: the first backlink level equal to
the hash, or the number of levels if there is none. -/
def scanBackLinks (backLink : List SkipBlockID) (hash : SkipBlockID) : Nat :=
  backLink.findIdx (fun b => b == hash)

/-- Line 279 of `ForwardSignature`: `current.ForwardLink[currHeight].Hash = h`. -/
def setForwardHash (fl : List BlockLink) (i : Nat) (h : SkipBlockID) : Option (List BlockLink) :=
  match fl.get? i with
  | none => none
  | some l => some (fl.set i { l with Hash := h })

/-- The function `ForwardSignature`. -/
def ForwardSignature (env : Env) (s : Service) (updating : ForwardSignatureRequest) :
    Service × Outcome :=
  match s.SkipBlocks updating.ToUpdate with
  | none => (s, Outcome.error SkipError.didntFindSkipBlock)
  | some current =>
    if !env.VerifySignatures updating.Latest then
      (s, Outcome.error SkipError.couldntVerifySignature)
    else
      let latest := updating.Latest
      let latestHeight := latest.BackLink.length
      let updateHeight := scanBackLinks latest.BackLink current.Hash
      if updateHeight = latestHeight then (s, Outcome.error SkipError.notInBacklinks)
      else
        let currHeight := current.ForwardLink.length
        let finish (s1 : Service) (cur : SkipBlock) : Service × Outcome :=
          match setForwardHash cur.ForwardLink currHeight updating.Latest.Hash with
          | none => (s1, Outcome.panic Panic.indexOutOfRange)
          | some fl =>
            let cur1 : SkipBlock := { cur with ForwardLink := fl }
            ({ s1 with SkipBlocks := store s1.SkipBlocks updating.ToUpdate cur1 }, Outcome.ok cur1)
        if currHeight = 0 then
          if current.Height < 0 ∨ sliceLimit env.maxSliceLen < current.Height then
            (s, Outcome.panic Panic.makesliceCapOutOfRange)
          else
            let cur : SkipBlock := { current with ForwardLink := [] }
            let s1 : Service := { s with SkipBlocks := store s.SkipBlocks updating.ToUpdate cur }
            if !verifyNewSkipBlock cur updating.Latest then
              (s1, Outcome.error SkipError.newSkipBlockNotAccepted)
            else finish s1 cur
        else
          if !verifyLinkedSkipBlock current updating.Latest then
            (s, Outcome.error SkipError.noValidUpdatePath)
          else finish s current

end Skipchain

namespace Skipchain

/-- The request `ProposeSkipBlock`. -/
structure ProposeSkipBlockRequest where
  Latest : SkipBlockID
  Proposed : SkipBlock
deriving DecidableEq, Repr

/-- The function `ProposeSkipBlock`, the entry point for peers.  `prop` and
`psbd.Proposed` are the same pointer, so the three assignments of lines 88-90
are seen by `proposeSkipBlock`. -/
def ProposeSkipBlock (env : Env) (rnd : List Nat) (s : Service) (psbd : ProposeSkipBlockRequest) :
    Service × Option ProposedSkipBlockReply × Option SkipError :=
  let call (prop : SkipBlock) : Service × Option ProposedSkipBlockReply × Option SkipError :=
    match proposeSkipBlock env rnd s psbd.Latest prop with
    | (s1, _, some err) => (s1, none, some err)
    | (s1, psbr, none) =>
      (s1, psbr.map (fun r => { Previous := r.Previous, Latest := r.Latest }), none)
  if !IsNull psbd.Latest then
    match getSkipBlockByID s psbd.Latest with
    | none => (s, none, some SkipError.didntFindLatestBlock)
    | some latest =>
      call { psbd.Proposed with
              MaximumHeight := latest.MaximumHeight
              ParentBlock := latest.ParentBlock
              VerifierId := latest.VerifierId }
  else call psbd.Proposed

end Skipchain

namespace Sign

/-! ## `Round.Add` and `Round.Sub` -/

/-- Modelled from the spec: the points of `abstract.Point`.  A point is a
mutable object holding an element of the group `G`; the objects allocated so
far are the addresses below `next`, and `cells` gives the element each one
holds. -/
structure PointHeap (G : Type) where
  cells : Nat → G
  next : Nat

/-- A value of the interface type `abstract.Point`: nil, or the address of a
point. -/
abbrev PointRef := Option Nat

/-- The element held by the point a reference leads to; `none` for nil. -/
def valueOf {G : Type} (h : PointHeap G) (r : PointRef) : Option G :=
  r.map h.cells

/-- Assignment to the point at an address. -/
def PointHeap.write {G : Type} (h : PointHeap G) (p : Nat) (v : G) : PointHeap G :=
  { h with cells := fun k => if k = p then v else h.cells k }

/-- Modelled from the spec: `r.Suite.Point().Null()`, a new point holding the
identity; returns the heap and the address of the new point. -/
def PointHeap.allocNull {G : Type} [AddGroup G] (h : PointHeap G) : PointHeap G × Nat :=
  ({ cells := fun k => if k = h.next then 0 else h.cells k, next := h.next + 1 }, h.next)

/-- The method `Round.Add`.  Its parameters are local variables: the
assignment `a = r.Suite.Point().Null()` changes the local `a` only.  The
function returns nothing; its effect is the new heap. -/
def Add {G : Type} [AddGroup G] (h : PointHeap G) (a b : PointRef) : PointHeap G :=
  let (h1, a1) : PointHeap G × Nat :=
    match a with
    | none => h.allocNull
    | some p => (h, p)
  match b with
  | none => h1
  | some q => h1.write a1 (h1.cells a1 + h1.cells q)

/-- The method `Round.Sub`. -/
def Sub {G : Type} [AddGroup G] (h : PointHeap G) (a b : PointRef) : PointHeap G :=
  let (h1, a1) : PointHeap G × Nat :=
    match a with
    | none => h.allocNull
    | some p => (h, p)
  match b with
  | none => h1
  | some q => h1.write a1 (h1.cells a1 - h1.cells q)

/-! ## Two calls of `RoundSetup` at one node -/

/-- Where a call of `RoundSetup` stands: before the section under `viewmu`
(lines 91-97), before the first section under `roundmu` (lines 99-116), before
the unlocked lines 118-124, before the second section under `roundmu` (lines
126-129), before the lines of the root (131-140), or returned. -/
inductive Pc where
  | viewCheck
  | roundCheck
  | install
  | lastSeen
  | root
  | done (r : SetupResult)
deriving DecidableEq, Repr

/-- A call of `RoundSetup` in progress. -/
structure Call where
  am : AnnouncementMessage
  pc : Pc
deriving DecidableEq, Repr

/-- One section of a call of `RoundSetup`, executed atomically on the node.
The sections under a lock are atomic by the lock; the unlocked lines are taken
as one step each. -/
def stepCall (tp : Topology) (view : Int) (sn : Node) (c : Call) : Node × Call :=
  match c.pc with
  | Pc.viewCheck =>
    if viewChangeGuard sn c.am then (sn, { c with pc := Pc.done SetupResult.ChangingViewError })
    else (sn, { c with pc := Pc.roundCheck })
  | Pc.roundCheck =>
    match admitSection tp sn c.am with
    | (sn1, SetupResult.nil) => (sn1, { c with pc := Pc.install })
    | (sn1, r) => (sn1, { c with pc := Pc.done r })
  | Pc.install => (installRound tp sn view c.am, { c with pc := Pc.lastSeen })
  | Pc.lastSeen => (updateLastSeen sn c.am.RoundNbr, { c with pc := Pc.root })
  | Pc.root => (rootSection tp sn view c.am.RoundNbr, { c with pc := Pc.done SetupResult.nil })
  | Pc.done _ => (sn, c)

/-- One call run alone for `n` sections. -/
def runCall (tp : Topology) (view : Int) : Nat → Node → Call → Node × Call
  | 0, sn, c => (sn, c)
  | n + 1, sn, c =>
    let out := stepCall tp view sn c
    runCall tp view n out.1 out.2

/-- Two calls at one node under a schedule: `false` lets the first call
execute its next section, `true` the second. -/
def runInterleaved (tp : Topology) (view : Int) : List Bool → Node → Call → Call →
    Node × Call × Call
  | [], sn, c1, c2 => (sn, c1, c2)
  | false :: rest, sn, c1, c2 =>
    let out := stepCall tp view sn c1
    runInterleaved tp view rest out.1 out.2 c2
  | true :: rest, sn, c1, c2 =>
    let out := stepCall tp view sn c2
    runInterleaved tp view rest out.1 c1 out.2

end Sign

/-! ## Statements of the specification, for comparison with the code -/

namespace Sign

/-- The admission rule in the words of the specification: a call is admitted
(`nil`) if and only if its round number is strictly greater than the round
number of every call admitted before it (`adm`), and is answered with
`ErrPastRound` otherwise. -/
def admitNewerThanAdmitted (adm : List Int) : List AnnouncementMessage → List SetupResult
  | [] => []
  | am :: rest =>
    if adm.all (fun a => decide (a < am.RoundNbr)) then
      SetupResult.nil :: admitNewerThanAdmitted (am.RoundNbr :: adm) rest
    else SetupResult.ErrPastRound :: admitNewerThanAdmitted adm rest

/-- The admission rule with the floor of the zero-valued watermark: a call is
admitted if and only if its round number is strictly greater than 0 and than
the round number of every call admitted before it. -/
def admitPositiveNewer (adm : List Int) : List AnnouncementMessage → List SetupResult
  | [] => []
  | am :: rest =>
    if decide (0 < am.RoundNbr) && adm.all (fun a => decide (a < am.RoundNbr)) then
      SetupResult.nil :: admitPositiveNewer (am.RoundNbr :: adm) rest
    else SetupResult.ErrPastRound :: admitPositiveNewer adm rest

/-- The watermark of `sn` stands for the rounds `adm` admitted so far. -/
def Tracks (sn : Node) (adm : List Int) : Prop :=
  sn.ChangingView = false ∧ 0 ≤ sn.LastSeenRound ∧
    ∀ n : Int, sn.LastSeenRound < n ↔ (0 < n ∧ ∀ a ∈ adm, a < n)

/-- The node after the first section under `roundmu` has admitted the
announcement: `RoundTypes` grown, the type of the round written. -/
def withRoundType (sn : Node) (am : AnnouncementMessage) : Node :=
  { sn with
    RoundTypes :=
      (growRoundTypes sn.RoundTypes am.RoundNbr).set am.RoundNbr.toNat (roundTypeOf am) }

/-- The schedule of two calls in which both execute their section under
`viewmu` and their first section under `roundmu` before either goes on. -/
def raceSchedule : List Bool :=
  [false, false, true, true, false, false, false, true, true, true]

/-- The schedule of two calls in which the first returns before the second
starts. -/
def sequentialSchedule : List Bool :=
  [false, false, false, false, false, true, true, true, true, true]

/-- A heap for examples: one point, holding the integer 5. -/
def onePoint : PointHeap Int := { cells := fun _ => 5, next := 1 }

/-- A topology for examples: a root without children, in a process that can
allocate slices up to the limit of the runtime. -/
def rootOnly : Topology :=
  { Children := fun _ => [], Parent := fun _ => "", IsRoot := fun _ => true,
    commitOf := fun _ => 0, backLinkOf := fun _ => [], maxSliceLen := 35184372088832 }

end Sign

namespace Skipchain

/-- The block `updateNewSkipBlock` stores for a genesis proposal. -/
def genesisBlock (env : Env) (rnd : List Nat) (proposed : SkipBlock) : SkipBlock :=
  let p : SkipBlock :=
    { proposed with
      VerifierId := VerifyNone
      Height := 1
      Index := intAdd proposed.Index 1
      BackLink := [randomBackLink rnd] }
  { p with Hash := env.calculateHash p }

/-- The block `updateNewSkipBlock` stores for a proposal extending `pv`. -/
def nextBlock (env : Env) (pv proposed : SkipBlock) : SkipBlock :=
  let p : SkipBlock :=
    { proposed with
      VerifierId := pv.VerifierId
      Height := 1
      Index := intAdd pv.Index 1
      BackLink := [pv.Hash] }
  { p with Hash := env.calculateHash p }

/-- The block `pv` once its forward link points to the hash `h`. -/
def linkedTo (pv : SkipBlock) (h : SkipBlockID) : SkipBlock :=
  { pv with ForwardLink := [{ Hash := h, Signature := [] }] }

/-- The block the level-0 forward link of `b` leads to, if `b` has a forward
link and its hash is in the table. -/
def followForward (t : BlockTable) (b : SkipBlock) : Option SkipBlock :=
  match b.ForwardLink with
  | [] => none
  | link :: _ => t link.Hash

/-- The tables reachable from the empty service by calls of
`proposeSkipBlock`, whatever the caller passes. -/
inductive Reachable (env : Env) : Service → Prop where
  | empty : Reachable env emptyService
  | propose (s : Service) (rnd : List Nat) (latest : SkipBlockID) (proposed : SkipBlock) :
      Reachable env s → Reachable env (proposeSkipBlock env rnd s latest proposed).1

/-- A block with every field at its zero value. -/
def zeroBlock : SkipBlock :=
  { Index := 0, Height := 0, MaximumHeight := 0, VerifierId := 0, ParentBlock := [],
    BackLink := [], ForwardLink := [], ChildSL := none, Hash := [], EntityList := [],
    Signature := [], Data := [] }

/-- A hash function for examples: the index, the payload length and the first
backlink of the block. -/
def sampleHash (b : SkipBlock) : SkipBlockID :=
  b.Index.toNat :: b.Data.length :: b.BackLink.headD []

/-- Collaborators for examples: `sampleHash`, a signature check that accepts
the blocks carrying a signature, a transport that never fails, and a process
that can allocate slices up to the limit of the runtime. -/
def sampleEnv : Env :=
  { calculateHash := sampleHash
    VerifySignatures := fun b => !b.Signature.isEmpty
    CreateServiceMessage := fun _ => none
    SendRaw := fun _ _ => none
    maxSliceLen := 35184372088832 }

/-- Collaborators for examples with a transport that fails, with error 7, for
the entity 2 and for no other. -/
def lossyEnv : Env :=
  { calculateHash := sampleHash
    VerifySignatures := fun b => !b.Signature.isEmpty
    CreateServiceMessage := fun _ => none
    SendRaw := fun e _ => if e = 2 then some 7 else none
    maxSliceLen := 35184372088832 }

/-- The hash of the block a call of `proposeSkipBlock` created, read from its
reply. -/
def createdHash (out : Service × Option ProposedSkipBlockReply × Option SkipError) :
    SkipBlockID :=
  match out.2.1 with
  | some r => r.Latest.Hash
  | none => []

/-- A proposal that arrives with a forward link to the hash `g`. -/
def proposalLinkingTo (g : SkipBlockID) : SkipBlock :=
  { zeroBlock with ForwardLink := [{ Hash := g, Signature := [] }] }

/-- A genesis proposal that arrives with `Index = 5` and a forward link to the
hash `[9]`. -/
def staleProposal : SkipBlock :=
  { zeroBlock with Index := 5, ForwardLink := [{ Hash := [9], Signature := [] }] }

/-- The service after two calls: a genesis creation, then a proposal against
the genesis block that arrives with a forward link to the genesis hash. -/
def cycleService (env : Env) (rnd1 rnd2 : List Nat) : Service :=
  let out1 := proposeSkipBlock env rnd1 emptyService [] zeroBlock
  (proposeSkipBlock env rnd2 out1.1 (createdHash out1) (proposalLinkingTo (createdHash out1))).1

/-- A service whose table holds the chain `[1] → [2] → [3]`, the last block
linking to a hash that is not stored. -/
def brokenChainService : Service :=
  { SkipBlocks := fun k =>
      if k = [1] then some { zeroBlock with Hash := [1], ForwardLink := [⟨[2], []⟩] }
      else if k = [2] then some { zeroBlock with Hash := [2], ForwardLink := [⟨[3], []⟩] }
      else if k = [3] then some { zeroBlock with Hash := [3], ForwardLink := [⟨[4], []⟩] }
      else none
    sent := [] }

/-- A service whose table holds the chain `[1] → [2]`. -/
def shortChainService : Service :=
  { SkipBlocks := fun k =>
      if k = [1] then some { zeroBlock with Hash := [1], ForwardLink := [⟨[2], []⟩] }
      else if k = [2] then some { zeroBlock with Hash := [2] }
      else none
    sent := [] }

/-- Propose the blocks of the list one after another, each against the hash
of the block created just before it (`tip` for the first); every proposal has
to succeed.  Returns the final service and the hashes of the created blocks,
in order of creation. -/
def extendChain (env : Env) : Service → SkipBlockID → List (List Nat × SkipBlock) →
    Option (Service × List SkipBlockID)
  | s, _, [] => some (s, [])
  | s, tip, (rnd, b) :: rest =>
    match proposeSkipBlock env rnd s tip b with
    | (s1, some r, none) =>
      match extendChain env s1 r.Latest.Hash rest with
      | some (s2, hs) => some (s2, r.Latest.Hash :: hs)
      | none => none
    | _ => none

/-- Create a genesis block at the empty service, then extend it by the blocks
of the list.  Returns the final service and the hashes of all created blocks,
the genesis hash first. -/
def buildChain (env : Env) (rnd0 : List Nat) (g0 : SkipBlock)
    (proposals : List (List Nat × SkipBlock)) : Option (Service × List SkipBlockID) :=
  match proposeSkipBlock env rnd0 emptyService [] g0 with
  | (s1, some r, none) =>
    match extendChain env s1 r.Latest.Hash proposals with
    | some (s2, hs) => some (s2, r.Latest.Hash :: hs)
    | none => none
  | _ => none

/-- The `n` consecutive integers from `k` on. -/
def indicesFrom (k : Int) : Nat → List Int
  | 0 => []
  | n + 1 => k :: indicesFrom (k + 1) n

end Skipchain

/-! # Theorems -/

/-! ## Machine integers -/

theorem wrap64_of_range (x : Int) (h1 : minInt64 ≤ x) (h2 : x ≤ maxInt64) : wrap64 x = x := by
  unfold wrap64
  unfold minInt64 at h1
  unfold maxInt64 at h2
  omega

theorem intAdd_one_of_lt (n : Int) (h1 : minInt64 ≤ n) (h2 : n < maxInt64) :
    intAdd n 1 = n + 1 := by
  unfold intAdd
  apply wrap64_of_range
  · unfold minInt64 at *; omega
  · unfold maxInt64 at *; omega

theorem intMax_eq_right (a b : Int) (h : a < b) : intMax a b = b := by
  unfold intMax; simp [h]

theorem le_intMax_left (a b : Int) : a ≤ intMax a b := by
  unfold intMax; split <;> omega

theorem le_intMax_right (a b : Int) : b ≤ intMax a b := by
  unfold intMax; split <;> omega

namespace Sign

/-! ## Round admission -/

theorem growRoundTypes_length_gt (rts : List RoundType) (n : Int) (h0 : 0 ≤ n)
    (h1 : n < maxInt64) : n < ((growRoundTypes rts n).length : Int) := by
  unfold growRoundTypes
  split
  · have hadd : intAdd n 1 = n + 1 := intAdd_one_of_lt n (by unfold minInt64; omega) h1
    have hmax : n + 1 ≤ intMax (rts.length : Int) (intAdd n 1) := by
      rw [hadd]; exact le_intMax_right _ _
    simp only [List.length_append, List.length_replicate]
    omega
  · omega

theorem sliceLimit_le (n : Nat) : sliceLimit n ≤ goMaxSliceLen := by
  unfold sliceLimit
  split <;> omega

/-- A table of at most `2 * n + 1` entries within the slice limit: the
allocations of line 108 for the round number `n` succeed. -/
theorem allocationFails_of_fits (tp : Topology) (rts : List RoundType) (n : Int) (h0 : 0 ≤ n)
    (hfit : 2 * n + 1 ≤ sliceLimit tp.maxSliceLen) : allocationFails tp rts n = false := by
  have hle := sliceLimit_le tp.maxSliceLen
  have hgo : goMaxSliceLen = 35184372088832 := rfl
  have hadd : intAdd n 1 = n + 1 :=
    intAdd_one_of_lt n (by unfold minInt64; omega) (by unfold maxInt64; omega)
  unfold allocationFails
  by_cases hl : (rts.length : Int) ≤ n
  · have hmax : intMax (rts.length : Int) (intAdd n 1) = n + 1 := by
      rw [hadd]; exact intMax_eq_right _ _ (by omega)
    rw [hmax]
    have h1 : ¬ sliceLimit tp.maxSliceLen < n + 1 := by omega
    have h2 : ¬ sliceLimit tp.maxSliceLen < (rts.length : Int) + (n + 1) := by omega
    simp [h1, h2]
  · simp [hl]

theorem lt_maxInt64_of_fits (tp : Topology) (n : Int)
    (hfit : 2 * n + 1 ≤ sliceLimit tp.maxSliceLen) : n < maxInt64 := by
  have hle := sliceLimit_le tp.maxSliceLen
  have hgo : goMaxSliceLen = 35184372088832 := rfl
  unfold maxInt64
  omega

/-- A call whose round number is not above the watermark is answered with
`ErrPastRound` and leaves the node as it was, when no view change blocks it. -/
theorem RoundSetup_stale (tp : Topology) (sn : Node) (view : Int) (am : AnnouncementMessage)
    (hg : viewChangeGuard sn am = false) (h : am.RoundNbr ≤ sn.LastSeenRound) :
    RoundSetup tp sn view am = (sn, SetupResult.ErrPastRound) := by
  simp [RoundSetup, hg, admitSection, h]

/-- The state a call leaves when `admitSection` admits it. -/
theorem RoundSetup_fresh (tp : Topology) (sn : Node) (view : Int) (am : AnnouncementMessage)
    (hg : viewChangeGuard sn am = false) (h : sn.LastSeenRound < am.RoundNbr)
    (h0 : 0 ≤ sn.LastSeenRound) (hfit : 2 * am.RoundNbr + 1 ≤ sliceLimit tp.maxSliceLen) :
    (RoundSetup tp sn view am).2 = SetupResult.nil ∧
    (RoundSetup tp sn view am).1.LastSeenRound = am.RoundNbr ∧
    (RoundSetup tp sn view am).1.ChangingView = sn.ChangingView := by
  have h1 := lt_maxInt64_of_fits tp am.RoundNbr hfit
  have hlen := growRoundTypes_length_gt sn.RoundTypes am.RoundNbr (by omega) h1
  have hnot : ¬ am.RoundNbr ≤ sn.LastSeenRound := by omega
  have hpos : 0 ≤ am.RoundNbr := by omega
  have hal := allocationFails_of_fits tp sn.RoundTypes am.RoundNbr hpos hfit
  simp only [RoundSetup, hg, admitSection, hnot, hal, hpos, hlen, if_false, and_self, if_true,
    Bool.false_eq_true]
  refine ⟨trivial, ?_, ?_⟩
  · unfold rootSection
    split <;> simp [updateLastSeen, installRound, intMax_eq_right _ _ h]
  · unfold rootSection
    split <;> simp [updateLastSeen, installRound]

theorem tracks_freshNode : Tracks freshNode [] := by
  refine ⟨rfl, le_refl _, ?_⟩
  intro n
  simp [freshNode]

theorem viewChangeGuard_of_not_changing (sn : Node) (am : AnnouncementMessage)
    (h : sn.ChangingView = false) : viewChangeGuard sn am = false := by
  simp [viewChangeGuard, h]

theorem submitAll_eq_admitPositiveNewer (tp : Topology) (view : Int) :
    ∀ (ams : List AnnouncementMessage) (sn : Node) (adm : List Int), Tracks sn adm →
      (∀ am ∈ ams, 2 * am.RoundNbr + 1 ≤ sliceLimit tp.maxSliceLen) →
      submitAll tp view sn ams = admitPositiveNewer adm ams := by
  intro ams
  induction ams with
  | nil => intro sn adm _ _; rfl
  | cons am rest ih =>
    intro sn adm htr hb
    obtain ⟨hcv, h0, hiff⟩ := htr
    have hg := viewChangeGuard_of_not_changing sn am hcv
    have hbam : 2 * am.RoundNbr + 1 ≤ sliceLimit tp.maxSliceLen :=
      hb am (List.mem_cons_self _ _)
    have hbrest : ∀ a ∈ rest, 2 * a.RoundNbr + 1 ≤ sliceLimit tp.maxSliceLen :=
      fun a ha => hb a (List.mem_cons_of_mem _ ha)
    by_cases hlt : sn.LastSeenRound < am.RoundNbr
    · obtain ⟨hres, hlsr, hcv1⟩ := RoundSetup_fresh tp sn view am hg hlt h0 hbam
      have hspec := (hiff am.RoundNbr).1 hlt
      have hcond : (decide (0 < am.RoundNbr) &&
          adm.all (fun a => decide (a < am.RoundNbr))) = true := by
        simp only [Bool.and_eq_true, decide_eq_true_eq, List.all_eq_true]
        exact hspec
      have htr1 : Tracks (RoundSetup tp sn view am).1 (am.RoundNbr :: adm) := by
        refine ⟨by rw [hcv1]; exact hcv, by rw [hlsr]; omega, ?_⟩
        intro n
        rw [hlsr]
        constructor
        · intro hn
          have h2 := (hiff n).1 (by omega)
          refine ⟨h2.1, ?_⟩
          intro a ha
          rcases List.mem_cons.1 ha with rfl | ha
          · exact hn
          · exact h2.2 a ha
        · intro hn
          exact hn.2 _ (List.mem_cons_self _ _)
      simp only [submitAll, admitPositiveNewer, hcond, if_true, hres]
      rw [ih _ _ htr1 hbrest]
    · have hle : am.RoundNbr ≤ sn.LastSeenRound := by omega
      have hst := RoundSetup_stale tp sn view am hg hle
      have hcond : (decide (0 < am.RoundNbr) &&
          adm.all (fun a => decide (a < am.RoundNbr))) = false := by
        rw [Bool.eq_false_iff]
        intro hc
        simp only [Bool.and_eq_true, decide_eq_true_eq, List.all_eq_true] at hc
        exact hlt ((hiff am.RoundNbr).2 hc)
      simp only [submitAll, admitPositiveNewer, hcond, hst]
      rw [ih sn adm ⟨hcv, h0, hiff⟩ hbrest]
      simp

/-- C1 (amended): for every finite sequence of announcements whose round
numbers `n` are small enough for a round-type table of `2 * n + 1` entries to
be within the slice limit of the process, submitted one after another to
`RoundSetup` at a node that has admitted no round yet, a call returns nil if
and only if its round number is strictly greater than 0 and than the round
number of every previously admitted call; every other call returns
`ErrPastRound`. -/
theorem C1_admission_iff_positive_and_newer (tp : Topology) (view : Int)
    (ams : List AnnouncementMessage)
    (hb : ∀ am ∈ ams, 2 * am.RoundNbr + 1 ≤ sliceLimit tp.maxSliceLen) :
    submitAll tp view freshNode ams = admitPositiveNewer [] ams :=
  submitAll_eq_admitPositiveNewer tp view ams freshNode [] tracks_freshNode hb

/-- C1 (witness): the rounds 1, 3, 2, 3, 5, 0 submitted in this order. -/
theorem C1_admission_witness :
    (∀ am ∈ [(⟨1, none⟩ : AnnouncementMessage), ⟨3, none⟩, ⟨2, some ⟨1, none⟩⟩, ⟨3, none⟩,
        ⟨5, none⟩, ⟨0, none⟩], 2 * am.RoundNbr + 1 ≤ sliceLimit rootOnly.maxSliceLen) ∧
    submitAll rootOnly 0 freshNode
        [⟨1, none⟩, ⟨3, none⟩, ⟨2, some ⟨1, none⟩⟩, ⟨3, none⟩, ⟨5, none⟩, ⟨0, none⟩] =
      [SetupResult.nil, SetupResult.nil, SetupResult.ErrPastRound, SetupResult.ErrPastRound,
        SetupResult.nil, SetupResult.ErrPastRound] :=
  ⟨by decide,
   (C1_admission_iff_positive_and_newer rootOnly 0
      [⟨1, none⟩, ⟨3, none⟩, ⟨2, some ⟨1, none⟩⟩, ⟨3, none⟩, ⟨5, none⟩, ⟨0, none⟩]
      (by decide)).trans (by decide)⟩

/-- C1 (counterexample): the first announcement at a fresh node carries round
number 0.  No call was admitted before it, so the rule as stated admits it;
`RoundSetup` answers `ErrPastRound`. -/
theorem C1_round_zero_rejected :
    submitAll rootOnly 0 freshNode [⟨0, none⟩] = [SetupResult.ErrPastRound] ∧
    admitNewerThanAdmitted [] [⟨0, none⟩] = [SetupResult.nil] := by
  decide

/-- When the view-change guard lets the call through, `RoundSetup` ends as
its first locked section does. -/
theorem RoundSetup_result_of_guard_false (tp : Topology) (sn : Node) (view : Int)
    (am : AnnouncementMessage) (hg : viewChangeGuard sn am = false) :
    (RoundSetup tp sn view am).2 = (admitSection tp sn am).2 := by
  rcases h : admitSection tp sn am with ⟨sn1, r⟩
  cases r <;> simp [RoundSetup, hg, h]

theorem admitSection_ne_changingView (tp : Topology) (sn : Node) (am : AnnouncementMessage) :
    (admitSection tp sn am).2 ≠ SetupResult.ChangingViewError := by
  simp only [admitSection]
  split
  · simp
  · split
    · simp
    · split <;> simp

/-- C2 (amended): for every node state with `ChangingView` set, `RoundSetup`
returns `ChangingViewError` exactly for the announcements that carry a vote
whose `Vcv` is nil; an announcement without a vote is not rejected with it. -/
theorem C2_view_change_error_iff (tp : Topology) (sn : Node) (view : Int)
    (am : AnnouncementMessage) (hcv : sn.ChangingView = true) :
    (RoundSetup tp sn view am).2 = SetupResult.ChangingViewError ↔
      ∃ v, am.Vote = some v ∧ v.Vcv = none := by
  constructor
  · intro h
    cases hv : am.Vote with
    | none =>
      exfalso
      have hg : viewChangeGuard sn am = false := by simp [viewChangeGuard, hv]
      rw [RoundSetup_result_of_guard_false tp sn view am hg] at h
      exact admitSection_ne_changingView tp sn am h
    | some v =>
      refine ⟨v, rfl, ?_⟩
      cases hvcv : v.Vcv with
      | none => rfl
      | some w =>
        exfalso
        have hg : viewChangeGuard sn am = false := by simp [viewChangeGuard, hv, hvcv]
        rw [RoundSetup_result_of_guard_false tp sn view am hg] at h
        exact admitSection_ne_changingView tp sn am h
  · rintro ⟨v, hv, hvcv⟩
    have hg : viewChangeGuard sn am = true := by simp [viewChangeGuard, hv, hvcv, hcv]
    simp [RoundSetup, hg]

/-- C2 (witness): a node changing view receives a vote without `Vcv`. -/
theorem C2_view_change_error_witness :
    (RoundSetup rootOnly { freshNode with ChangingView := true } 0
        ⟨1, some ⟨1, none⟩⟩).2 = SetupResult.ChangingViewError :=
  (C2_view_change_error_iff rootOnly { freshNode with ChangingView := true } 0
    ⟨1, some ⟨1, none⟩⟩ rfl).2 ⟨⟨1, none⟩, rfl, rfl⟩

/-- C2 (counterexample): a node changing view receives the announcement of
round 1 without a vote; `RoundSetup` admits it. -/
theorem C2_no_vote_admitted_during_view_change :
    ({ freshNode with ChangingView := true } : Node).ChangingView = true ∧
    (⟨1, none⟩ : AnnouncementMessage).Vote = none ∧
    (RoundSetup rootOnly { freshNode with ChangingView := true } 0 ⟨1, none⟩).2
      = SetupResult.nil := by
  decide

end Sign

namespace Skipchain

/-! ## Block proposal -/

theorem propagateTo_SkipBlocks (env : Env) (b : SkipBlock) :
    ∀ (es : List Entity) (s : Service), (propagateTo env b es s).1.SkipBlocks = s.SkipBlocks := by
  intro es
  induction es with
  | nil => intro s; rfl
  | cons e es ih =>
    intro s
    simp only [propagateTo]
    split
    · rfl
    · split
      · rfl
      · rw [ih]

/-- Propagation leaves the block table as it is. -/
theorem startPropagation_SkipBlocks (env : Env) (s : Service) (b : SkipBlock) :
    (startPropagation env s b).1.SkipBlocks = s.SkipBlocks :=
  propagateTo_SkipBlocks env b b.EntityList s

theorem randomBackLink_length (rnd : List Nat) : (randomBackLink rnd).length = 32 := by
  simp [randomBackLink]

theorem updateNewSkipBlock_genesis (env : Env) (rnd : List Nat) (s : Service)
    (proposed : SkipBlock) :
    updateNewSkipBlock env rnd s none { proposed with VerifierId := VerifyNone } =
      ((⟨store s.SkipBlocks (genesisBlock env rnd proposed).Hash
            (genesisBlock env rnd proposed), s.sent⟩ : Service), none, genesisBlock env rnd proposed) := by
  simp [updateNewSkipBlock, genesisBlock, List.replicate]

theorem updateNewSkipBlock_next (env : Env) (rnd : List Nat) (s : Service)
    (key : SkipBlockID) (pv proposed : SkipBlock) :
    updateNewSkipBlock env rnd s (some (key, pv)) { proposed with VerifierId := pv.VerifierId } =
      ((⟨store (store s.SkipBlocks key (linkedTo pv (nextBlock env pv proposed).Hash))
              (nextBlock env pv proposed).Hash (nextBlock env pv proposed), s.sent⟩ : Service),
        some (linkedTo pv (nextBlock env pv proposed).Hash), nextBlock env pv proposed) := by
  simp [updateNewSkipBlock, nextBlock, linkedTo, NewBlockLink, List.replicate]

/-- A genesis proposal: what `proposeSkipBlock` returns for a nil or empty
latest hash. -/
theorem proposeSkipBlock_genesis (env : Env) (rnd : List Nat) (s : Service)
    (latest : SkipBlockID) (proposed : SkipBlock) (h : latest.length = 0) :
    proposeSkipBlock env rnd s latest proposed =
      ((startPropagation env
          (⟨store s.SkipBlocks (genesisBlock env rnd proposed).Hash
              (genesisBlock env rnd proposed), s.sent⟩ : Service) (genesisBlock env rnd proposed)).1,
        some { Previous := none, Latest := genesisBlock env rnd proposed },
        (startPropagation env
          (⟨store s.SkipBlocks (genesisBlock env rnd proposed).Hash
              (genesisBlock env rnd proposed), s.sent⟩ : Service) (genesisBlock env rnd proposed)).2) := by
  simp only [proposeSkipBlock, h, if_true, updateNewSkipBlock_genesis]

theorem verifyNewSkipBlock_iff (latest newest : SkipBlock) :
    verifyNewSkipBlock latest newest = true ↔
      newest.VerifierId = VerifyNone ∧ latest.ForwardLink.length = 0 := by
  unfold verifyNewSkipBlock
  split
  · simp_all
  · simp_all

/-- A proposal against a stored block that the policy accepts. -/
theorem proposeSkipBlock_accept (env : Env) (rnd : List Nat) (s : Service)
    (latest : SkipBlockID) (pv proposed : SkipBlock) (hne : latest ≠ [])
    (hpv : s.SkipBlocks latest = some pv) (hv : pv.VerifierId = VerifyNone)
    (hfl : pv.ForwardLink = []) :
    proposeSkipBlock env rnd s latest proposed =
      replyAndPropagate env
        (⟨store (store s.SkipBlocks latest (linkedTo pv (nextBlock env pv proposed).Hash))
              (nextBlock env pv proposed).Hash (nextBlock env pv proposed), s.sent⟩ : Service)
        (some (linkedTo pv (nextBlock env pv proposed).Hash)) (nextBlock env pv proposed) := by
  have hlen : ¬ latest.length = 0 := by
    intro h; exact hne (List.length_eq_zero.1 h)
  have hnull : IsNull latest = false := by
    simp [IsNull, hne]
  have hver : verifyNewSkipBlock pv { proposed with VerifierId := pv.VerifierId } = true := by
    rw [verifyNewSkipBlock_iff]; simp [hv, hfl]
  simp only [proposeSkipBlock, hlen, if_false, hnull, hpv, hver, if_true,
    updateNewSkipBlock_next, Bool.not_false]

/-- A proposal against a stored block that the policy rejects. -/
theorem proposeSkipBlock_reject (env : Env) (rnd : List Nat) (s : Service)
    (latest : SkipBlockID) (pv proposed : SkipBlock) (hne : latest ≠ [])
    (hpv : s.SkipBlocks latest = some pv)
    (hrej : ¬ (pv.VerifierId = VerifyNone ∧ pv.ForwardLink = [])) :
    proposeSkipBlock env rnd s latest proposed = (s, none, some SkipError.verificationError) := by
  have hlen : ¬ latest.length = 0 := by
    intro h; exact hne (List.length_eq_zero.1 h)
  have hnull : IsNull latest = false := by
    simp [IsNull, hne]
  have hver : verifyNewSkipBlock pv { proposed with VerifierId := pv.VerifierId } = false := by
    rw [Bool.eq_false_iff, Ne, verifyNewSkipBlock_iff]
    simpa [List.length_eq_zero] using hrej
  simp only [proposeSkipBlock, hlen, if_false, hnull, hpv, hver, Bool.not_false, if_true,
    Bool.false_eq_true]

/-- A proposal against a hash that is not in the table. -/
theorem proposeSkipBlock_unknown (env : Env) (rnd : List Nat) (s : Service)
    (latest : SkipBlockID) (proposed : SkipBlock) (hne : latest ≠ [])
    (hpv : s.SkipBlocks latest = none) :
    proposeSkipBlock env rnd s latest proposed =
      (s, none, some SkipError.couldntFindLatestBlock) := by
  have hlen : ¬ latest.length = 0 := by
    intro h; exact hne (List.length_eq_zero.1 h)
  have hnull : IsNull latest = false := by
    simp [IsNull, hne]
  simp only [proposeSkipBlock, hlen, if_false, hnull, hpv, Bool.not_false, if_true]

theorem replyAndPropagate_SkipBlocks (env : Env) (s : Service) (prev : Option SkipBlock)
    (b : SkipBlock) : (replyAndPropagate env s prev b).1.SkipBlocks = s.SkipBlocks := by
  have h := startPropagation_SkipBlocks env s b
  unfold replyAndPropagate
  rcases hsp : startPropagation env s b with ⟨s1, e⟩
  rw [hsp] at h
  cases e <;> simpa using h

theorem replyAndPropagate_reply (env : Env) (s s1 : Service) (prev : Option SkipBlock)
    (b : SkipBlock) (r : ProposedSkipBlockReply) (e : Option SkipError)
    (h : replyAndPropagate env s prev b = (s1, some r, e)) :
    r = { Previous := prev, Latest := b } ∧ e = none := by
  unfold replyAndPropagate at h
  rcases hsp : startPropagation env s b with ⟨s2, e2⟩
  rw [hsp] at h
  cases e2 <;> simp_all

/-- After an accepted extension of `A` whose new hash differs from `A.Hash`,
the table entry for `A` is `A` with the forward link to the new block. -/
theorem entry_after_extension (env : Env) (rnd : List Nat) (s : Service) (A B : SkipBlock)
    (r : ProposedSkipBlockReply) (hA : s.SkipBlocks A.Hash = some A) (hne : A.Hash ≠ [])
    (hres : (proposeSkipBlock env rnd s A.Hash B).2 = (some r, none))
    (hd : r.Latest.Hash ≠ A.Hash) :
    (proposeSkipBlock env rnd s A.Hash B).1.SkipBlocks A.Hash
      = some (linkedTo A r.Latest.Hash) := by
  by_cases hacc : A.VerifierId = VerifyNone ∧ A.ForwardLink = []
  · have hp := proposeSkipBlock_accept env rnd s A.Hash A B hne hA hacc.1 hacc.2
    rw [hp] at hres ⊢
    rcases hrp : replyAndPropagate env
        (⟨store (store s.SkipBlocks A.Hash (linkedTo A (nextBlock env A B).Hash))
          (nextBlock env A B).Hash (nextBlock env A B), s.sent⟩ : Service)
        (some (linkedTo A (nextBlock env A B).Hash)) (nextBlock env A B) with ⟨s1, ro, e⟩
    rw [hrp] at hres
    simp only [Prod.mk.injEq] at hres
    obtain ⟨hro, he⟩ := hres
    subst hro
    obtain ⟨hr, -⟩ := replyAndPropagate_reply _ _ _ _ _ _ _ hrp
    have hblocks := replyAndPropagate_SkipBlocks env
        (⟨store (store s.SkipBlocks A.Hash (linkedTo A (nextBlock env A B).Hash))
          (nextBlock env A B).Hash (nextBlock env A B), s.sent⟩ : Service)
        (some (linkedTo A (nextBlock env A B).Hash)) (nextBlock env A B)
    rw [hrp] at hblocks
    subst hr
    simp only at hblocks hd ⊢
    rw [hblocks]
    have hd2 : ¬ A.Hash = (nextBlock env A B).Hash := fun h => hd h.symm
    simp [store, hd2]
  · rw [proposeSkipBlock_reject env rnd s A.Hash A B hne hA hacc] at hres
    simp at hres


/-- C3 (failing input): a genesis proposal whose block carries `Index = 5`.
The reply has `Previous = nil`, the block has the single random backlink and
is stored under its own hash, but its `Index` is 6, not 1: line 111
increments the caller's value. -/
theorem C3_genesis_index_follows_proposal (env : Env) (rnd : List Nat) (s : Service) :
    ∃ s1 r e, proposeSkipBlock env rnd s [] { zeroBlock with Index := 5 } = (s1, some r, e) ∧
      r.Previous = none ∧ r.Latest.Index = 6 ∧
      r.Latest.BackLink = [randomBackLink rnd] ∧ (randomBackLink rnd).length = 32 ∧
      s1.SkipBlocks r.Latest.Hash = some r.Latest := by
  refine ⟨_, _, _, proposeSkipBlock_genesis env rnd s [] _ rfl, rfl, ?_, rfl,
    randomBackLink_length rnd, ?_⟩
  · simp only [genesisBlock, zeroBlock]
    decide
  · rw [startPropagation_SkipBlocks]
    simp [store]

/-- An extension through the branch of lines 55-68: for every block table
containing a block `A` under a non-empty hash `A.Hash` and every proposed
block `B`, if `proposeSkipBlock(A.Hash, B)` succeeds then the returned `Latest` has
`Index = A.Index + 1` (Go addition; the mathematical sum when `A.Index` is an
`int` below the largest one) and `BackLink = [A.Hash]`, the returned
`Previous` is `A` with its new forward link, and afterwards, unless the new
hash equals `A.Hash`, the table entry for `A` has the single forward link to
`Latest.Hash`. -/
theorem extension_links (env : Env) (rnd : List Nat) (s : Service) (A B : SkipBlock)
    (r : ProposedSkipBlockReply) (hA : s.SkipBlocks A.Hash = some A) (hne : A.Hash ≠ [])
    (hres : (proposeSkipBlock env rnd s A.Hash B).2 = (some r, none)) :
    r.Latest.Index = intAdd A.Index 1 ∧
    (minInt64 ≤ A.Index → A.Index < maxInt64 → r.Latest.Index = A.Index + 1) ∧
    r.Latest.BackLink = [A.Hash] ∧
    r.Previous = some (linkedTo A r.Latest.Hash) ∧
    (r.Latest.Hash ≠ A.Hash →
      (proposeSkipBlock env rnd s A.Hash B).1.SkipBlocks A.Hash
        = some (linkedTo A r.Latest.Hash)) ∧
    (linkedTo A r.Latest.Hash).ForwardLink.length = 1 ∧
    (linkedTo A r.Latest.Hash).ForwardLink.map (fun l => l.Hash) = [r.Latest.Hash] := by
  by_cases hacc : A.VerifierId = VerifyNone ∧ A.ForwardLink = []
  · have hp := proposeSkipBlock_accept env rnd s A.Hash A B hne hA hacc.1 hacc.2
    rw [hp] at hres ⊢
    rcases hrp : replyAndPropagate env
        (⟨store (store s.SkipBlocks A.Hash (linkedTo A (nextBlock env A B).Hash))
          (nextBlock env A B).Hash (nextBlock env A B), s.sent⟩ : Service)
        (some (linkedTo A (nextBlock env A B).Hash)) (nextBlock env A B) with ⟨s1, ro, e⟩
    rw [hrp] at hres
    simp only [Prod.mk.injEq] at hres
    obtain ⟨hro, he⟩ := hres
    subst hro
    obtain ⟨hr, -⟩ := replyAndPropagate_reply _ _ _ _ _ _ _ hrp
    have hblocks := replyAndPropagate_SkipBlocks env
        (⟨store (store s.SkipBlocks A.Hash (linkedTo A (nextBlock env A B).Hash))
          (nextBlock env A B).Hash (nextBlock env A B), s.sent⟩ : Service)
        (some (linkedTo A (nextBlock env A B).Hash)) (nextBlock env A B)
    rw [hrp] at hblocks
    subst hr
    refine ⟨rfl, ?_, rfl, rfl, ?_, rfl, rfl⟩
    · intro h1 h2
      exact intAdd_one_of_lt A.Index h1 h2
    · intro hd
      simp only at hblocks hd ⊢
      rw [hblocks]
      have hd2 : ¬ A.Hash = (nextBlock env A B).Hash := fun h => hd h.symm
      simp [store, hd2]
  · rw [proposeSkipBlock_reject env rnd s A.Hash A B hne hA hacc] at hres
    simp at hres

/-- The block with hash `[1]` is extended by a zero-valued proposal. -/
theorem extension_links_example :
    (nextBlock sampleEnv { zeroBlock with Hash := [1] } zeroBlock).Index = 1 ∧
    (nextBlock sampleEnv { zeroBlock with Hash := [1] } zeroBlock).BackLink = [[1]] ∧
    (proposeSkipBlock sampleEnv []
        ⟨store (fun _ => none) [1] { zeroBlock with Hash := [1] }, []⟩ [1] zeroBlock).1.SkipBlocks [1]
      = some (linkedTo { zeroBlock with Hash := [1] } [1, 0, 1]) := by
  have h := extension_links sampleEnv []
    ⟨store (fun _ => none) [1] { zeroBlock with Hash := [1] }, []⟩
    { zeroBlock with Hash := [1] } zeroBlock
    ⟨some (linkedTo { zeroBlock with Hash := [1] } [1, 0, 1]),
      nextBlock sampleEnv { zeroBlock with Hash := [1] } zeroBlock⟩
    (by decide) (by decide) (by decide)
  exact ⟨h.2.1 (by decide) (by decide), h.2.2.1, h.2.2.2.2.1 (by decide)⟩

/-- C4 (failing input): the table holds a block `A` with `Index = 7` and an
empty `Hash` under the empty key.  `proposeSkipBlock(A.Hash, B)` does not
return the error its doc comment announces for a nil hash when blocks exist:
it succeeds as a genesis creation, `Previous` is nil, `Latest.Index` is 1, not
8, and `BackLink[0]` is not `A.Hash`. -/
theorem C4_empty_hash_is_genesis :
    (store (fun _ => none) [] { zeroBlock with Index := 7 })
        ({ zeroBlock with Index := 7 } : SkipBlock).Hash = some { zeroBlock with Index := 7 } ∧
    (proposeSkipBlock sampleEnv []
        ⟨store (fun _ => none) [] { zeroBlock with Index := 7 }, []⟩
        ({ zeroBlock with Index := 7 } : SkipBlock).Hash zeroBlock).2
      = (some ⟨none, genesisBlock sampleEnv [] zeroBlock⟩, none) ∧
    (genesisBlock sampleEnv [] zeroBlock).Index = 1 ∧
    (genesisBlock sampleEnv [] zeroBlock).BackLink ≠ [[]] := by
  decide

/-- Two proposals through the branch of lines 55-68: for every block table,
every block `A` stored under a non-empty hash `A.Hash` and every two proposed
blocks `B` and `C`: once
`proposeSkipBlock(A.Hash, B)` has succeeded with a new hash different from
`A.Hash`, a following `proposeSkipBlock(A.Hash, C)` fails with the
verification error, returns no reply and leaves the service, block table
included, unchanged. -/
theorem second_extension_rejected (env : Env) (rnd1 rnd2 : List Nat) (s : Service)
    (A B C : SkipBlock) (r : ProposedSkipBlockReply)
    (hA : s.SkipBlocks A.Hash = some A) (hne : A.Hash ≠ [])
    (hres : (proposeSkipBlock env rnd1 s A.Hash B).2 = (some r, none))
    (hd : r.Latest.Hash ≠ A.Hash) :
    proposeSkipBlock env rnd2 (proposeSkipBlock env rnd1 s A.Hash B).1 A.Hash C =
      ((proposeSkipBlock env rnd1 s A.Hash B).1, none, some SkipError.verificationError) ∧
    (proposeSkipBlock env rnd1 s A.Hash B).1.SkipBlocks A.Hash
      = some (linkedTo A r.Latest.Hash) := by
  have h4 := entry_after_extension env rnd1 s A B r hA hne hres hd
  refine ⟨?_, h4⟩
  apply proposeSkipBlock_reject env rnd2 _ A.Hash (linkedTo A r.Latest.Hash) C hne h4
  simp [linkedTo]

/-- The block with hash `[1]` is extended once; the second proposal against it
is refused. -/
theorem second_extension_rejected_example :
    (proposeSkipBlock sampleEnv []
        (proposeSkipBlock sampleEnv []
          ⟨store (fun _ => none) [1] { zeroBlock with Hash := [1] }, []⟩ [1] zeroBlock).1
        [1] { zeroBlock with Data := [7] }).2 = (none, some SkipError.verificationError) := by
  have h := (second_extension_rejected sampleEnv [] []
    ⟨store (fun _ => none) [1] { zeroBlock with Hash := [1] }, []⟩
    { zeroBlock with Hash := [1] } zeroBlock { zeroBlock with Data := [7] }
    ⟨some (linkedTo { zeroBlock with Hash := [1] } [1, 0, 1]),
      nextBlock sampleEnv { zeroBlock with Hash := [1] } zeroBlock⟩
    (by decide) (by decide) (by decide) (by decide)).1
  exact congrArg Prod.snd h

/-- C5 (failing input): the table holds a block `A` with an empty `Hash`
under the empty key.  `proposeSkipBlock(A.Hash, B)` succeeds, and the following
`proposeSkipBlock(A.Hash, C)` succeeds as well, where the doc comment of the
function announces an error for a nil hash when blocks exist: both are genesis creations,
which consult no verifier. -/
theorem C5_empty_hash_extended_twice :
    (store (fun _ => none) [] zeroBlock) zeroBlock.Hash = some zeroBlock ∧
    (proposeSkipBlock sampleEnv [] ⟨store (fun _ => none) [] zeroBlock, []⟩
        zeroBlock.Hash zeroBlock).2
      = (some ⟨none, genesisBlock sampleEnv [] zeroBlock⟩, none) ∧
    (proposeSkipBlock sampleEnv []
        (proposeSkipBlock sampleEnv [] ⟨store (fun _ => none) [] zeroBlock, []⟩
          zeroBlock.Hash zeroBlock).1
        zeroBlock.Hash { zeroBlock with Data := [7] }).2
      = (some ⟨none, genesisBlock sampleEnv [] { zeroBlock with Data := [7] }⟩, none) := by
  decide

/-- C6: `verifyNewSkipBlock` accepts if and only if the verifier of the
newest block is `VerifyNone` and the latest block has no forward link; for
every other verifier it rejects, whatever the blocks. -/
theorem C6_verifyNewSkipBlock_policy (latest newest : SkipBlock) :
    (verifyNewSkipBlock latest newest = true ↔
      newest.VerifierId = VerifyNone ∧ latest.ForwardLink.length = 0) ∧
    (newest.VerifierId ≠ VerifyNone → verifyNewSkipBlock latest newest = false) := by
  refine ⟨verifyNewSkipBlock_iff latest newest, ?_⟩
  intro h
  simp [verifyNewSkipBlock, h]

/-- C6 (witness): a block under another verifier is refused. -/
theorem C6_verifyNewSkipBlock_policy_witness :
    verifyNewSkipBlock zeroBlock { zeroBlock with VerifierId := 3 } = false :=
  (C6_verifyNewSkipBlock_policy zeroBlock { zeroBlock with VerifierId := 3 }).2 (by decide)

/-! ## Chain traversal -/

theorem followForward_eq_some (t : BlockTable) (b c : SkipBlock) :
    followForward t b = some c ↔
      ∃ link rest, b.ForwardLink = link :: rest ∧ t link.Hash = some c := by
  unfold followForward
  cases h : b.ForwardLink with
  | nil => simp
  | cons link rest => simp

/-- The loop never ends inside a set of blocks each of which links to a stored
block of the set. -/
theorem updateChainLoop_none_of_closed (t : BlockTable) (S : SkipBlock → Prop)
    (hS : ∀ b, S b → ∃ c, followForward t b = some c ∧ S c) :
    ∀ (fuel : Nat) (b : SkipBlock) (acc : List SkipBlock), S b →
      updateChainLoop t fuel b acc = none := by
  intro fuel
  induction fuel with
  | zero => intro b acc _; rfl
  | succ n ih =>
    intro b acc hb
    obtain ⟨c, hc, hSc⟩ := hS b hb
    obtain ⟨link, rest, hfl, hlk⟩ := (followForward_eq_some t b c).1 hc
    simp only [updateChainLoop, hfl, hlk]
    exact ih c _ hSc

/-- What the loop returns when it returns a sequence. -/
theorem updateChainLoop_ok (t : BlockTable) :
    ∀ (fuel : Nat) (b : SkipBlock) (acc blocks : List SkipBlock),
      updateChainLoop t fuel b acc = some (Except.ok blocks) →
      ∃ ext, blocks = acc ++ ext ∧
        List.Chain (fun a c => followForward t a = some c) b ext ∧
        (ext.getLastD b).ForwardLink = [] := by
  intro fuel
  induction fuel with
  | zero => intro b acc blocks h; simp [updateChainLoop] at h
  | succ n ih =>
    intro b acc blocks h
    cases hfl : b.ForwardLink with
    | nil =>
      simp only [updateChainLoop, hfl, Option.some.injEq, Except.ok.injEq] at h
      exact ⟨[], by simp [h], List.Chain.nil, by simpa using hfl⟩
    | cons link rest =>
      cases hlk : t link.Hash with
      | none => simp [updateChainLoop, hfl, hlk] at h
      | some c =>
        simp only [updateChainLoop, hfl, hlk] at h
        obtain ⟨ext, hb, hch, hlast⟩ := ih c _ _ h
        refine ⟨c :: ext, by simp [hb], List.Chain.cons ?_ hch, ?_⟩
        · exact (followForward_eq_some t b c).2 ⟨link, rest, hfl, hlk⟩
        · rw [List.getLastD_cons]; exact hlast

/-- The loop along a path of stored blocks that ends in a block without
forward link returns the path. -/
theorem updateChainLoop_of_path (t : BlockTable) :
    ∀ (ext : List SkipBlock) (b : SkipBlock) (acc : List SkipBlock) (fuel : Nat),
      List.Chain (fun a c => followForward t a = some c) b ext →
      (ext.getLastD b).ForwardLink = [] → ext.length < fuel →
      updateChainLoop t fuel b acc = some (Except.ok (acc ++ ext)) := by
  intro ext
  induction ext with
  | nil =>
    intro b acc fuel _ hlast hf
    obtain ⟨n, rfl⟩ : ∃ n, fuel = n + 1 := ⟨fuel - 1, by simp at hf; omega⟩
    have hfl : b.ForwardLink = [] := by simpa using hlast
    simp [updateChainLoop, hfl]
  | cons c ext ih =>
    intro b acc fuel hch hlast hf
    obtain ⟨n, rfl⟩ : ∃ n, fuel = n + 1 := ⟨fuel - 1, by simp at hf; omega⟩
    rw [List.chain_cons] at hch
    obtain ⟨link, rest, hfl, hlk⟩ := (followForward_eq_some t b c).1 hch.1
    have hlast1 : (ext.getLastD c).ForwardLink = [] := by
      rw [List.getLastD_cons] at hlast; exact hlast
    simp only [updateChainLoop, hfl, hlk]
    rw [ih c _ n hch.2 hlast1 (by simp at hf; omega)]
    simp

/-- The loop along a path of stored blocks that ends in a block whose forward
link is not in the table returns the missing-block error. -/
theorem updateChainLoop_missing (t : BlockTable) :
    ∀ (ext : List SkipBlock) (b : SkipBlock) (acc : List SkipBlock) (fuel : Nat)
      (link : BlockLink) (rest : List BlockLink),
      List.Chain (fun a c => followForward t a = some c) b ext →
      (ext.getLastD b).ForwardLink = link :: rest → t link.Hash = none → ext.length < fuel →
      updateChainLoop t fuel b acc = some (Except.error SkipError.missingBlockInForwardChain) := by
  intro ext
  induction ext with
  | nil =>
    intro b acc fuel link rest _ hlast hmiss hf
    obtain ⟨n, rfl⟩ : ∃ n, fuel = n + 1 := ⟨fuel - 1, by simp at hf; omega⟩
    have hfl : b.ForwardLink = link :: rest := by simpa using hlast
    simp [updateChainLoop, hfl, hmiss]
  | cons c ext ih =>
    intro b acc fuel link rest hch hlast hmiss hf
    obtain ⟨n, rfl⟩ : ∃ n, fuel = n + 1 := ⟨fuel - 1, by simp at hf; omega⟩
    rw [List.chain_cons] at hch
    obtain ⟨link1, rest1, hfl, hlk⟩ := (followForward_eq_some t b c).1 hch.1
    have hlast1 : (ext.getLastD c).ForwardLink = link :: rest := by
      rw [List.getLastD_cons] at hlast; exact hlast
    simp only [updateChainLoop, hfl, hlk]
    exact ih c _ n link rest hch.2 hlast1 hmiss (by simp at hf; omega)

theorem startPropagation_empty_roster (env : Env) (s : Service) (b : SkipBlock)
    (h : b.EntityList = []) : startPropagation env s b = (s, none) := by
  simp [startPropagation, h, propagateTo]

/-- The genesis creation from a zero-valued proposal at the empty service. -/
theorem proposeSkipBlock_first (env : Env) (rnd : List Nat) :
    proposeSkipBlock env rnd emptyService [] zeroBlock =
      (⟨store (fun _ => none) (genesisBlock env rnd zeroBlock).Hash
          (genesisBlock env rnd zeroBlock), []⟩,
        some ⟨none, genesisBlock env rnd zeroBlock⟩, none) := by
  rw [proposeSkipBlock_genesis env rnd emptyService [] zeroBlock rfl]
  rw [startPropagation_empty_roster env _ _ rfl]
  rfl

/-- C7 (failing input): after a genesis creation and one proposal against the
genesis block that arrives with a forward link to the genesis hash, both by
`proposeSkipBlock` from the empty table, the walk of `GetUpdateChain` from the
genesis hash runs out of every amount of fuel: it never returns. -/
theorem C7_GetUpdateChain_never_returns (env : Env) (rnd1 rnd2 : List Nat)
    (hH : createdHash (proposeSkipBlock env rnd1 emptyService [] zeroBlock) ≠ []) :
    Reachable env (cycleService env rnd1 rnd2) ∧
    ∀ fuel, GetUpdateChain (cycleService env rnd1 rnd2) fuel
      (createdHash (proposeSkipBlock env rnd1 emptyService [] zeroBlock)) = none := by
  constructor
  · exact Reachable.propose _ _ _ _ (Reachable.propose _ _ _ _ Reachable.empty)
  · intro fuel
    have h1 := proposeSkipBlock_first env rnd1
    have hg : createdHash (proposeSkipBlock env rnd1 emptyService [] zeroBlock)
        = (genesisBlock env rnd1 zeroBlock).Hash := by rw [h1]; rfl
    rw [hg] at hH ⊢
    generalize hG : genesisBlock env rnd1 zeroBlock = G at *
    have hGv : G.VerifierId = VerifyNone := by rw [← hG]; rfl
    have hGf : G.ForwardLink = [] := by rw [← hG]; rfl
    generalize hP : nextBlock env G (proposalLinkingTo G.Hash) = P
    have hPf : P.ForwardLink = [⟨G.Hash, []⟩] := by rw [← hP]; rfl
    have ht : (cycleService env rnd1 rnd2).SkipBlocks
        = store (store (store (fun _ => none) G.Hash G) G.Hash (linkedTo G P.Hash)) P.Hash P := by
      simp only [cycleService, h1]
      have hc : createdHash ((⟨store (fun _ => none) G.Hash G, []⟩ : Service),
          some (⟨none, G⟩ : ProposedSkipBlockReply), (none : Option SkipError)) = G.Hash := rfl
      rw [hc]
      rw [proposeSkipBlock_accept env rnd2 _ G.Hash G _ hH (by simp [store]) hGv hGf]
      rw [replyAndPropagate_SkipBlocks, hP]
    have hclosed : ∀ b, (b = P ∨ b = linkedTo G P.Hash) →
        ∃ c, followForward (cycleService env rnd1 rnd2).SkipBlocks b = some c ∧
          (c = P ∨ c = linkedTo G P.Hash) := by
      intro b hb
      rcases hb with rfl | rfl
      · by_cases he : G.Hash = b.Hash
        · exact ⟨b, by simp [followForward, hPf, ht, store, he], Or.inl rfl⟩
        · exact ⟨linkedTo G b.Hash, by simp [followForward, hPf, ht, store, he], Or.inr rfl⟩
      · exact ⟨P, by simp [followForward, linkedTo, ht, store], Or.inl rfl⟩
    by_cases he : G.Hash = P.Hash
    · have hs : (cycleService env rnd1 rnd2).SkipBlocks G.Hash = some P := by
        simp [ht, store, he]
      simp only [GetUpdateChain, getSkipBlockByID, hs]
      exact updateChainLoop_none_of_closed _ _ hclosed fuel P _ (Or.inl rfl)
    · have hs : (cycleService env rnd1 rnd2).SkipBlocks G.Hash = some (linkedTo G P.Hash) := by
        simp [ht, store, he]
      simp only [GetUpdateChain, getSkipBlockByID, hs]
      exact updateChainLoop_none_of_closed _ _ hclosed fuel _ _ (Or.inr rfl)

/-- C7 (witness): the failing run under the example collaborators, with fuel
for a thousand turns of the loop. -/
theorem C7_GetUpdateChain_never_returns_witness :
    createdHash (proposeSkipBlock sampleEnv [] emptyService [] zeroBlock) ≠ [] ∧
    GetUpdateChain (cycleService sampleEnv [] []) 1000
      (createdHash (proposeSkipBlock sampleEnv [] emptyService [] zeroBlock)) = none :=
  ⟨by decide, (C7_GetUpdateChain_never_returns sampleEnv [] [] (by decide)).2 1000⟩

/-- The shape of a sequence returned by `GetUpdateChain`. -/
theorem GetUpdateChain_ok_shape (s : Service) (start : SkipBlockID) (fuel : Nat)
    (blocks : List SkipBlock) (h : GetUpdateChain s fuel start = some (Except.ok blocks)) :
    ∃ b0 ext, blocks = b0 :: ext ∧ s.SkipBlocks start = some b0 ∧
      List.Chain (fun a c => followForward s.SkipBlocks a = some c) b0 ext ∧
      (ext.getLastD b0).ForwardLink = [] := by
  cases hs : s.SkipBlocks start with
  | none => simp [GetUpdateChain, getSkipBlockByID, hs] at h
  | some b0 =>
    simp only [GetUpdateChain, getSkipBlockByID, hs] at h
    obtain ⟨ext, hb, hch, hlast⟩ := updateChainLoop_ok _ _ _ _ _ h
    exact ⟨b0, ext, by simpa using hb, rfl, hch, hlast⟩

/-- C8: `GetUpdateChain` fails if the starting hash is not in the table;
whenever it returns a sequence, the sequence starts with the block stored
under the starting hash, each later element is the block stored under
`ForwardLink[0].Hash` of the element before it, and the last element has no
forward link; and it fails with the missing-block error when the walk reaches
a block whose `ForwardLink[0].Hash` is not in the table. -/
theorem C8_GetUpdateChain_walk (s : Service) (start : SkipBlockID) :
    (s.SkipBlocks start = none →
      ∀ fuel, GetUpdateChain s fuel start
        = some (Except.error SkipError.couldntFindLatestSkipblock)) ∧
    (∀ fuel blocks, GetUpdateChain s fuel start = some (Except.ok blocks) →
      ∃ b0 ext, blocks = b0 :: ext ∧ s.SkipBlocks start = some b0 ∧
        List.Chain (fun a c => followForward s.SkipBlocks a = some c) b0 ext ∧
        (ext.getLastD b0).ForwardLink = []) ∧
    (∀ b0 ext link rest, s.SkipBlocks start = some b0 →
      List.Chain (fun a c => followForward s.SkipBlocks a = some c) b0 ext →
      (ext.getLastD b0).ForwardLink = link :: rest → s.SkipBlocks link.Hash = none →
      ∀ fuel, ext.length < fuel →
        GetUpdateChain s fuel start
          = some (Except.error SkipError.missingBlockInForwardChain)) := by
  refine ⟨?_, ?_, ?_⟩
  · intro h fuel
    simp [GetUpdateChain, getSkipBlockByID, h]
  · intro fuel blocks h
    exact GetUpdateChain_ok_shape s start fuel blocks h
  · intro b0 ext link rest hs hch hlast hmiss fuel hf
    simp only [GetUpdateChain, getSkipBlockByID, hs]
    exact updateChainLoop_missing _ ext b0 _ fuel link rest hch hlast hmiss hf

/-- C8 (witness): on the chain `[1] → [2] → [3]` whose last block links to the
unknown hash `[4]`, the walk from `[1]` ends with the missing-block error, the
walk from the unknown hash `[9]` with the unknown-start error; on the chain
`[1] → [2]` the walk returns a sequence of the stated shape. -/
theorem C8_GetUpdateChain_walk_witness :
    GetUpdateChain brokenChainService 3 [1]
      = some (Except.error SkipError.missingBlockInForwardChain) ∧
    GetUpdateChain brokenChainService 3 [9]
      = some (Except.error SkipError.couldntFindLatestSkipblock) ∧
    ∃ b0 ext, [({ zeroBlock with Hash := [1], ForwardLink := [⟨[2], []⟩] } : SkipBlock),
          { zeroBlock with Hash := [2] }] = b0 :: ext ∧
        shortChainService.SkipBlocks [1] = some b0 ∧
        List.Chain (fun a c => followForward shortChainService.SkipBlocks a = some c) b0 ext ∧
        (ext.getLastD b0).ForwardLink = [] :=
  ⟨(C8_GetUpdateChain_walk brokenChainService [1]).2.2
      { zeroBlock with Hash := [1], ForwardLink := [⟨[2], []⟩] }
      [{ zeroBlock with Hash := [2], ForwardLink := [⟨[3], []⟩] },
       { zeroBlock with Hash := [3], ForwardLink := [⟨[4], []⟩] }]
      ⟨[4], []⟩ [] rfl
      (List.Chain.cons rfl (List.Chain.cons rfl List.Chain.nil)) rfl rfl 3 (by decide),
   (C8_GetUpdateChain_walk brokenChainService [9]).1 rfl 3,
   (C8_GetUpdateChain_walk shortChainService [1]).2.1 2 _ rfl⟩

/-- C9 (failing input): the genesis block is created from the proposal
`staleProposal`, which arrives with `Index = 5` and a forward link to the hash
`[9]`; no further block is proposed.  The created block `G` has `Index` 6, not 1, and
`GetUpdateChain(G.Hash)` does not return `[G]`, whatever the fuel. -/
theorem C9_genesis_with_forward_link (env : Env) (rnd : List Nat) :
    ∃ s1 G, proposeSkipBlock env rnd emptyService [] staleProposal
        = (s1, some ⟨none, G⟩, none) ∧
      G.Index = 6 ∧
      ∀ fuel, GetUpdateChain s1 fuel G.Hash ≠ some (Except.ok [G]) := by
  refine ⟨⟨store (fun _ => none) (genesisBlock env rnd staleProposal).Hash
      (genesisBlock env rnd staleProposal), []⟩, genesisBlock env rnd staleProposal, ?_, ?_, ?_⟩
  · rw [proposeSkipBlock_genesis env rnd emptyService [] _ rfl]
    rw [startPropagation_empty_roster env _ _ rfl]
    rfl
  · simp only [genesisBlock, staleProposal, zeroBlock]
    decide
  · intro fuel h
    obtain ⟨b0, ext, hb, hs, -, hlast⟩ := GetUpdateChain_ok_shape _ _ fuel _ h
    simp only [List.cons.injEq] at hb
    obtain ⟨rfl, rfl⟩ := hb
    simp [genesisBlock, staleProposal] at hlast

/-- C10 (amended): for every known target block and every candidate block none
of whose `BackLink` entries equals the target's `Hash`, `ForwardSignature`
fails with the not-found-in-backlinks error when the candidate's signature
verifies, and with the signature error when it does not; either way the
service is left as it was. -/
theorem C10_not_in_backlinks (env : Env) (s : Service) (updating : ForwardSignatureRequest)
    (target : SkipBlock) (hT : s.SkipBlocks updating.ToUpdate = some target)
    (hB : ∀ b ∈ updating.Latest.BackLink, b ≠ target.Hash) :
    (env.VerifySignatures updating.Latest = true →
      ForwardSignature env s updating = (s, Outcome.error SkipError.notInBacklinks)) ∧
    (env.VerifySignatures updating.Latest = false →
      ForwardSignature env s updating = (s, Outcome.error SkipError.couldntVerifySignature)) := by
  constructor
  · intro hsig
    have hscan : scanBackLinks updating.Latest.BackLink target.Hash
        = updating.Latest.BackLink.length := by
      unfold scanBackLinks
      apply List.findIdx_eq_length_of_false
      intro b hb
      simpa using hB b hb
    simp [ForwardSignature, hT, hsig, hscan]
  · intro hsig
    simp [ForwardSignature, hT, hsig]

/-- C10 (witness): a signed candidate whose only backlink is `[5]` is offered
for the stored block `[1]`. -/
theorem C10_not_in_backlinks_witness :
    ForwardSignature sampleEnv shortChainService
        ⟨[1], { zeroBlock with BackLink := [[5]], Signature := [1] }⟩
      = (shortChainService, Outcome.error SkipError.notInBacklinks) :=
  (C10_not_in_backlinks sampleEnv shortChainService
    ⟨[1], { zeroBlock with BackLink := [[5]], Signature := [1] }⟩
    { zeroBlock with Hash := [1], ForwardLink := [⟨[2], []⟩] } rfl (by decide)).1 rfl

/-- C10 (counterexample): the target `[1]` is stored, the candidate has the
single backlink `[5]` and a signature that does not verify; `ForwardSignature`
fails with the signature error, not with the not-found-in-backlinks error. -/
theorem C10_signature_checked_first :
    shortChainService.SkipBlocks [1]
      = some { zeroBlock with Hash := [1], ForwardLink := [⟨[2], []⟩] } ∧
    sampleEnv.VerifySignatures { zeroBlock with BackLink := [[5]] } = false ∧
    (ForwardSignature sampleEnv shortChainService
        ⟨[1], { zeroBlock with BackLink := [[5]] }⟩).2
      = Outcome.error SkipError.couldntVerifySignature := by
  decide

/-! ## Chains built from proposals that arrive without forward link -/

theorem replyAndPropagate_success (env : Env) (s s1 : Service) (prev : Option SkipBlock)
    (b : SkipBlock) (r : ProposedSkipBlockReply)
    (h : replyAndPropagate env s prev b = (s1, some r, none)) :
    r = { Previous := prev, Latest := b } ∧ s1.SkipBlocks = s.SkipBlocks := by
  have hb := replyAndPropagate_SkipBlocks env s prev b
  rw [h] at hb
  exact ⟨(replyAndPropagate_reply env s s1 prev b r none h).1, hb⟩

/-- Extending a stored tip block by proposals that arrive without forward
link: the table changes only at the tip and at the new hashes, and from the
tip the level-0 forward links lead through the new blocks, in order, to a
block without forward link. -/
theorem extendChain_path (env : Env) :
    ∀ (proposals : List (List Nat × SkipBlock)) (s : Service) (tip : SkipBlockID)
      (b : SkipBlock) (s2 : Service) (hs : List SkipBlockID),
      extendChain env s tip proposals = some (s2, hs) →
      s.SkipBlocks tip = some b → b.Hash = tip → b.ForwardLink = [] →
      b.VerifierId = VerifyNone →
      (∀ p ∈ proposals, p.2.ForwardLink = []) →
      (tip :: hs).Nodup → (∀ h ∈ tip :: hs, h ≠ []) →
      minInt64 ≤ b.Index → b.Index + (proposals.length : Int) ≤ maxInt64 →
      (∀ k, k ∉ tip :: hs → s2.SkipBlocks k = s.SkipBlocks k) ∧
      ∃ b1 ext, s2.SkipBlocks tip = some b1 ∧ b1.Index = b.Index ∧ b1.Hash = tip ∧
        ext.map (fun x => x.Hash) = hs ∧
        ext.map (fun x => x.Index) = indicesFrom (b.Index + 1) proposals.length ∧
        (∀ x ∈ ext, s2.SkipBlocks x.Hash = some x) ∧
        List.Chain (fun a c => followForward s2.SkipBlocks a = some c) b1 ext ∧
        (ext.getLastD b1).ForwardLink = [] := by
  intro proposals
  induction proposals with
  | nil =>
    intro s tip b s2 hs hrun hb hbh hbf _ _ _ _ _ _
    simp only [extendChain, Option.some.injEq, Prod.mk.injEq] at hrun
    obtain ⟨rfl, rfl⟩ := hrun
    refine ⟨fun _ _ => rfl, b, [], hb, rfl, hbh, rfl, rfl, ?_, List.Chain.nil, ?_⟩
    · intro x hx; simp at hx
    · simpa using hbf
  | cons p rest ih =>
    intro s tip b s2 hs hrun hb hbh hbf hbv hfl hnd hne hlo hhi
    obtain ⟨rnd, q⟩ := p
    have htip : tip ≠ [] := hne tip (List.mem_cons_self _ _)
    have hacc := proposeSkipBlock_accept env rnd s tip b q htip hb hbv hbf
    simp only [extendChain, hacc] at hrun
    generalize hnb : nextBlock env b q = nb at hrun
    rcases hrp : replyAndPropagate env
        (⟨store (store s.SkipBlocks tip (linkedTo b nb.Hash)) nb.Hash nb, s.sent⟩ : Service)
        (some (linkedTo b nb.Hash)) nb with ⟨s1, ro, e⟩
    rw [hrp] at hrun
    cases ro with
    | none => simp at hrun
    | some r =>
      cases e with
      | some err => simp at hrun
      | none =>
        obtain ⟨hr, ht1⟩ := replyAndPropagate_success env _ _ _ _ _ hrp
        subst hr
        simp only at hrun ht1
        rcases hrest : extendChain env s1 nb.Hash rest with _ | ⟨s3, hs3⟩
        · simp [hrest] at hrun
        · simp only [hrest, Option.some.injEq, Prod.mk.injEq] at hrun
          obtain ⟨rfl, rfl⟩ := hrun
          have hnbq : nb.ForwardLink = [] := by
            rw [← hnb]; exact hfl (rnd, q) (List.mem_cons_self _ _)
          have hnbv : nb.VerifierId = VerifyNone := by rw [← hnb]; exact hbv
          have hnbi : nb.Index = b.Index + 1 := by
            rw [← hnb]
            exact intAdd_one_of_lt b.Index hlo (by
              simp only [List.length_cons, Nat.cast_add, Nat.cast_one] at hhi
              omega)
          have hnd1 : (nb.Hash :: hs3).Nodup := (List.nodup_cons.1 hnd).2
          have htn : tip ∉ nb.Hash :: hs3 := (List.nodup_cons.1 hnd).1
          have htne : tip ≠ nb.Hash := fun h => htn (h ▸ List.mem_cons_self _ _)
          have hs1nb : s1.SkipBlocks nb.Hash = some nb := by
            rw [ht1]; simp [store]
          have hs1tip : s1.SkipBlocks tip = some (linkedTo b nb.Hash) := by
            rw [ht1]; simp [store, htne]
          obtain ⟨hframe, b1, ext, hb1, hb1i, hb1h, hhash, hidx, hstored, hch, hlast⟩ :=
            ih s1 nb.Hash nb s3 hs3 hrest hs1nb rfl hnbq hnbv
              (fun p hp => hfl p (List.mem_cons_of_mem _ hp)) hnd1
              (fun h hh => hne h (List.mem_cons_of_mem _ hh))
              (by rw [hnbi]; omega)
              (by
                rw [hnbi]
                simp only [List.length_cons, Nat.cast_add, Nat.cast_one] at hhi
                omega)
          have hs3tip : s3.SkipBlocks tip = some (linkedTo b nb.Hash) := by
            rw [hframe tip htn]; exact hs1tip
          refine ⟨?_, linkedTo b nb.Hash, b1 :: ext, hs3tip, rfl, hbh, ?_, ?_, ?_, ?_, ?_⟩
          · intro k hk
            have hk1 : k ∉ nb.Hash :: hs3 := fun h => hk (List.mem_cons_of_mem _ h)
            have hk2 : k ≠ tip := fun h => hk (h ▸ List.mem_cons_self _ _)
            have hk3 : k ≠ nb.Hash := fun h => hk1 (h ▸ List.mem_cons_self _ _)
            rw [hframe k hk1, ht1]
            simp [store, hk2, hk3]
          · simp [hhash, hb1h]
          · simp only [List.map_cons, List.length_cons, indicesFrom, hb1i, hnbi]
            rw [hidx, hnbi]
          · intro x hx
            rcases List.mem_cons.1 hx with rfl | hx
            · rw [hb1h]; exact hb1
            · exact hstored x hx
          · refine List.Chain.cons ?_ hch
            simp [followForward, linkedTo, hb1]
          · rw [List.getLastD_cons]; exact hlast

theorem indicesFrom_length (k : Int) (n : Nat) : (indicesFrom k n).length = n := by
  induction n generalizing k with
  | zero => rfl
  | succ n ih => simp [indicesFrom, ih]

/-- A chain built from proposals that arrive with `Index = 0` (genesis) and
without forward link, with non-empty and pairwise distinct hashes:
`GetUpdateChain` from the genesis hash returns the created blocks in order of
creation, as the table holds them, with the indices 1, 2, ..., n + 1. -/
theorem buildChain_traversal (env : Env) (rnd0 : List Nat) (g0 : SkipBlock)
    (proposals : List (List Nat × SkipBlock)) (s : Service) (hs : List SkipBlockID)
    (hrun : buildChain env rnd0 g0 proposals = some (s, hs))
    (hg0i : g0.Index = 0) (hg0f : g0.ForwardLink = [])
    (hfl : ∀ p ∈ proposals, p.2.ForwardLink = [])
    (hnd : hs.Nodup) (hne : ∀ h ∈ hs, h ≠ [])
    (hlen : (proposals.length : Int) + 1 ≤ maxInt64) :
    ∃ blocks, blocks.map (fun x => x.Hash) = hs ∧
      blocks.map (fun x => x.Index) = indicesFrom 1 (proposals.length + 1) ∧
      (∀ x ∈ blocks, s.SkipBlocks x.Hash = some x) ∧
      ∀ fuel, proposals.length < fuel →
        GetUpdateChain s fuel (hs.headD []) = some (Except.ok blocks) := by
  have hgen := proposeSkipBlock_genesis env rnd0 emptyService [] g0 rfl
  simp only [buildChain, hgen] at hrun
  generalize hG : genesisBlock env rnd0 g0 = G at hrun
  have hsb := startPropagation_SkipBlocks env
    (⟨store emptyService.SkipBlocks G.Hash G, emptyService.sent⟩ : Service) G
  rcases hsp : startPropagation env
      (⟨store emptyService.SkipBlocks G.Hash G, emptyService.sent⟩ : Service) G with ⟨s1, e⟩
  rw [hsp] at hrun hsb
  simp only at hrun hsb
  cases e with
  | some err => simp at hrun
  | none =>
    simp only at hrun
    rcases hrest : extendChain env s1 G.Hash proposals with _ | ⟨s3, hs3⟩
    · simp [hrest] at hrun
    · simp only [hrest, Option.some.injEq, Prod.mk.injEq] at hrun
      obtain ⟨rfl, rfl⟩ := hrun
      have hGi : G.Index = 1 := by
        rw [← hG]
        simp only [genesisBlock, hg0i]
        decide
      have hGf : G.ForwardLink = [] := by rw [← hG]; exact hg0f
      have hGv : G.VerifierId = VerifyNone := by rw [← hG]; rfl
      have hstore : s1.SkipBlocks G.Hash = some G := by
        rw [hsb]; simp [store]
      obtain ⟨-, b1, ext, hb1, hb1i, hb1h, hhash, hidx, hstored, hch, hlast⟩ :=
        extendChain_path env proposals s1 G.Hash G s3 hs3 hrest hstore rfl hGf hGv hfl hnd hne
          (by rw [hGi]; unfold minInt64; omega)
          (by rw [hGi]; omega)
      refine ⟨b1 :: ext, by simp [hhash, hb1h], ?_, ?_, ?_⟩
      · simp only [List.map_cons, indicesFrom, hb1i, hGi, hidx]
      · intro x hx
        rcases List.mem_cons.1 hx with rfl | hx
        · rw [hb1h]; exact hb1
        · exact hstored x hx
      · intro fuel hf
        have hlenext : ext.length = proposals.length := by
          have h1 := congrArg List.length hidx
          simp only [List.length_map] at h1
          rw [h1]
          exact indicesFrom_length _ _
        simp only [List.headD_cons, GetUpdateChain, getSkipBlockByID, hb1]
        rw [updateChainLoop_of_path _ ext b1 [b1] fuel hch hlast (by omega)]
        rfl

/-- The scenario of the specification under the example collaborators: genesis
`G`, then `B1` extending `G`, then `B2` extending `B1`; `GetUpdateChain(G.Hash)`
returns the three blocks, with the indices 1, 2, 3. -/
theorem buildChain_traversal_example :
    ∃ s hs blocks, buildChain sampleEnv [] zeroBlock
        [([], { zeroBlock with Data := [1] }), ([], { zeroBlock with Data := [2, 2] })]
        = some (s, hs) ∧
      blocks.map (fun x => x.Index) = [1, 2, 3] ∧
      blocks.map (fun x => x.Hash) = hs ∧
      GetUpdateChain s 3 (hs.headD []) = some (Except.ok blocks) := by
  rcases hrun : buildChain sampleEnv [] zeroBlock
      [([], { zeroBlock with Data := [1] }), ([], { zeroBlock with Data := [2, 2] })]
    with _ | ⟨s, hs⟩
  · exact absurd (congrArg Option.isSome hrun) (by decide)
  · have hhs : hs = (Option.map Prod.snd (buildChain sampleEnv [] zeroBlock
        [([], { zeroBlock with Data := [1] }), ([], { zeroBlock with Data := [2, 2] })])).getD [] := by
      rw [hrun]; rfl
    obtain ⟨blocks, hh, hi, -, hget⟩ := buildChain_traversal sampleEnv [] zeroBlock _ s hs hrun
      rfl rfl (by decide) (by rw [hhs]; decide) (by rw [hhs]; decide) (by decide)
    exact ⟨s, hs, blocks, rfl, hi, hh, hget 3 (by decide)⟩

end Skipchain

namespace Sign

/-! ## What an accepted and what a rejected call leaves behind -/

/-- A call ends with nil exactly when the view-change guard lets it through,
its round number is above the watermark and the index into the grown
`RoundTypes` is in range. -/
theorem RoundSetup_nil_iff (tp : Topology) (sn : Node) (view : Int) (am : AnnouncementMessage) :
    (RoundSetup tp sn view am).2 = SetupResult.nil ↔
      viewChangeGuard sn am = false ∧ sn.LastSeenRound < am.RoundNbr ∧
        allocationFails tp sn.RoundTypes am.RoundNbr = false ∧ 0 ≤ am.RoundNbr ∧
        am.RoundNbr < ((growRoundTypes sn.RoundTypes am.RoundNbr).length : Int) := by
  cases hg : viewChangeGuard sn am with
  | true => simp [RoundSetup, hg]
  | false =>
    rw [RoundSetup_result_of_guard_false tp sn view am hg]
    by_cases hle : am.RoundNbr ≤ sn.LastSeenRound
    · have hnl : ¬ sn.LastSeenRound < am.RoundNbr := by omega
      simp [admitSection, hle, hnl]
    · have hl : sn.LastSeenRound < am.RoundNbr := by omega
      cases hal : allocationFails tp sn.RoundTypes am.RoundNbr with
      | true => simp [admitSection, hle, hal]
      | false =>
        by_cases hin : 0 ≤ am.RoundNbr ∧
            am.RoundNbr < ((growRoundTypes sn.RoundTypes am.RoundNbr).length : Int)
        · simp [admitSection, hle, hal, hin, hl]
        · simp only [admitSection, hle, hal, hin, if_false, Bool.false_eq_true, true_and, hl]
          constructor
          · intro h1; simp at h1
          · intro h1; exact absurd h1 (by simp)

/-- The state an accepted call leaves. -/
theorem RoundSetup_accept_state (tp : Topology) (sn : Node) (view : Int)
    (am : AnnouncementMessage) (h : (RoundSetup tp sn view am).2 = SetupResult.nil) :
    (RoundSetup tp sn view am).1 =
      rootSection tp
        (updateLastSeen (installRound tp (withRoundType sn am) view am) am.RoundNbr)
        view am.RoundNbr := by
  obtain ⟨hg, hlt, hal, h0, hlen⟩ := (RoundSetup_nil_iff tp sn view am).1 h
  have hnot : ¬ am.RoundNbr ≤ sn.LastSeenRound := by omega
  simp only [RoundSetup, hg, admitSection, hnot, hal, h0, hlen, if_false, and_self, if_true,
    Bool.false_eq_true, withRoundType]

/-- C16: after every accepted call of `RoundSetup` with round number `n`,
`RoundTypes[n]` is `SigningRT` when the announcement carries no vote and the
declared type of the vote otherwise, the round stored at `Rounds[n]` carries
that vote and the given view, and `LastSeenRound` equals `n`. -/
theorem C16_accepted_round_recorded (tp : Topology) (sn : Node) (view : Int)
    (am : AnnouncementMessage) (h : (RoundSetup tp sn view am).2 = SetupResult.nil) :
    0 ≤ am.RoundNbr ∧
    (RoundSetup tp sn view am).1.RoundTypes.get? am.RoundNbr.toNat = some (roundTypeOf am) ∧
    (am.Vote = none → roundTypeOf am = SigningRT) ∧
    (∀ v, am.Vote = some v → roundTypeOf am = v.Typ) ∧
    (∃ r, (RoundSetup tp sn view am).1.Rounds am.RoundNbr = some r ∧
      r.Vote = am.Vote ∧ r.View = view) ∧
    (RoundSetup tp sn view am).1.LastSeenRound = am.RoundNbr := by
  obtain ⟨hg, hlt, -, h0, hlen⟩ := (RoundSetup_nil_iff tp sn view am).1 h
  rw [RoundSetup_accept_state tp sn view am h]
  have hidx : am.RoundNbr.toNat < (growRoundTypes sn.RoundTypes am.RoundNbr).length := by
    omega
  refine ⟨h0, ?_, ?_, ?_, ?_, ?_⟩
  · have hrt : (rootSection tp
          (updateLastSeen (installRound tp (withRoundType sn am) view am) am.RoundNbr)
          view am.RoundNbr).RoundTypes
        = (growRoundTypes sn.RoundTypes am.RoundNbr).set am.RoundNbr.toNat (roundTypeOf am) := by
      unfold rootSection
      split <;> rfl
    rw [hrt, List.get?_eq_getElem?, List.getElem?_set_self hidx]
  · intro hv; simp [roundTypeOf, hv]
  · intro v hv; simp [roundTypeOf, hv]
  · unfold rootSection
    split
    · simp [updateLastSeen, installRound]
    · simp [updateLastSeen, installRound]
  · unfold rootSection
    split <;> simp [updateLastSeen, installRound, withRoundType, intMax_eq_right _ _ hlt]

/-- C16 (witness): round 2, carrying a vote of type 3, is announced to a fresh
node. -/
theorem C16_accepted_round_recorded_witness :
    (RoundSetup rootOnly freshNode 7 ⟨2, some ⟨3, none⟩⟩).1.RoundTypes.get? 2 = some 3 ∧
    (RoundSetup rootOnly freshNode 7 ⟨2, some ⟨3, none⟩⟩).1.LastSeenRound = 2 :=
  ⟨(C16_accepted_round_recorded rootOnly freshNode 7 ⟨2, some ⟨3, none⟩⟩ (by decide)).2.1,
   (C16_accepted_round_recorded rootOnly freshNode 7 ⟨2, some ⟨3, none⟩⟩ (by decide)).2.2.2.2.2⟩

/-- C20: whenever `RoundSetup` rejects an announcement, with
`ChangingViewError` or with `ErrPastRound`, the node is exactly as before the
call; and when both the view-change guard and the stale-round condition hold,
`ChangingViewError` is returned. -/
theorem C20_rejection_leaves_node (tp : Topology) (sn : Node) (view : Int)
    (am : AnnouncementMessage) :
    ((RoundSetup tp sn view am).2 = SetupResult.ChangingViewError ∨
        (RoundSetup tp sn view am).2 = SetupResult.ErrPastRound →
      (RoundSetup tp sn view am).1 = sn) ∧
    (viewChangeGuard sn am = true → am.RoundNbr ≤ sn.LastSeenRound →
      (RoundSetup tp sn view am).2 = SetupResult.ChangingViewError) := by
  constructor
  · intro h
    cases hg : viewChangeGuard sn am with
    | true => simp [RoundSetup, hg]
    | false =>
      by_cases hle : am.RoundNbr ≤ sn.LastSeenRound
      · rw [RoundSetup_stale tp sn view am hg hle]
      · exfalso
        rw [RoundSetup_result_of_guard_false tp sn view am hg] at h
        simp only [admitSection, hle, if_false] at h
        split at h
        · simp at h
        · split at h <;> simp at h
  · intro hg _
    simp [RoundSetup, hg]

/-- C20 (witness): a node that has seen round 4 and is changing view receives
round 3 with a vote without `Vcv`, then round 3 without vote. -/
theorem C20_rejection_leaves_node_witness :
    (RoundSetup rootOnly { freshNode with ChangingView := true, LastSeenRound := 4 } 0
        ⟨3, some ⟨1, none⟩⟩).2 = SetupResult.ChangingViewError ∧
    (RoundSetup rootOnly { freshNode with ChangingView := true, LastSeenRound := 4 } 0
        ⟨3, none⟩).1 = { freshNode with ChangingView := true, LastSeenRound := 4 } :=
  ⟨(C20_rejection_leaves_node rootOnly
      { freshNode with ChangingView := true, LastSeenRound := 4 } 0 ⟨3, some ⟨1, none⟩⟩).2
      (by decide) (by decide),
   (C20_rejection_leaves_node rootOnly
      { freshNode with ChangingView := true, LastSeenRound := 4 } 0 ⟨3, none⟩).1
      (Or.inr (by decide))⟩

end Sign

namespace Sign

/-! ## The growth of `RoundTypes` -/

/-- When the allocations of line 108 succeed and `roundNbr + 1` does not
wrap, the growth step makes room for the index, keeps the entries the table
had and fills the new ones with `EmptyRT`. -/
theorem growRoundTypes_spec (tp : Topology) (rts : List RoundType) (n : Int) (h0 : 0 ≤ n)
    (h1 : n < maxInt64) (_hal : allocationFails tp rts n = false) :
    n < ((growRoundTypes rts n).length : Int) ∧
    (∀ i, i < rts.length → (growRoundTypes rts n).get? i = rts.get? i) ∧
    (∀ i, rts.length ≤ i → i < (growRoundTypes rts n).length →
      (growRoundTypes rts n).get? i = some EmptyRT) := by
  refine ⟨growRoundTypes_length_gt rts n h0 h1, ?_, ?_⟩
  · intro i hi
    unfold growRoundTypes
    split
    · simp only [List.get?_eq_getElem?]
      rw [List.getElem?_append_left hi]
    · rfl
  · intro i hi hlen
    unfold growRoundTypes at hlen ⊢
    split at hlen
    · rename_i hle
      simp only [hle, if_true, List.get?_eq_getElem?]
      rw [List.getElem?_append_right hi]
      simp only [List.length_append, List.length_replicate] at hlen
      rw [List.getElem?_replicate]
      simp only [ite_eq_left_iff, not_lt]
      intro hcontra
      omega
    · omega

/-- C19 (failing input): a node that has admitted no round yet (empty
`RoundTypes`, `LastSeenRound = 0`) is announced the round number
`9223372036854775807`.  On line 108 `roundNbr + 1` wraps to the smallest
`int`, the table stays empty, and the write to `RoundTypes[roundNbr]` is out
of range. -/
theorem C19_growth_wraps_at_largest_int :
    0 ≤ freshNode.LastSeenRound ∧ freshNode.LastSeenRound < maxInt64 ∧
    intAdd maxInt64 1 = minInt64 ∧
    growRoundTypes freshNode.RoundTypes maxInt64 = [] ∧
    (admitSection rootOnly freshNode ⟨maxInt64, none⟩).2 = SetupResult.indexOutOfRange ∧
    (RoundSetup rootOnly freshNode 0 ⟨maxInt64, none⟩).2 = SetupResult.indexOutOfRange := by
  decide

/-! ## Two concurrent calls -/

/-- Running the five sections of one call without interruption is
`RoundSetup`. -/
theorem runCall_eq_RoundSetup (tp : Topology) (view : Int) (sn : Node)
    (am : AnnouncementMessage) :
    runCall tp view 5 sn ⟨am, Pc.viewCheck⟩ =
      ((RoundSetup tp sn view am).1, ⟨am, Pc.done (RoundSetup tp sn view am).2⟩) := by
  cases hg : viewChangeGuard sn am with
  | true => simp [runCall, stepCall, RoundSetup, hg]
  | false =>
    rcases ha : admitSection tp sn am with ⟨sn1, r⟩
    cases r <;> simp [runCall, stepCall, RoundSetup, hg, ha]

theorem admitSection_accept (tp : Topology) (sn : Node) (am : AnnouncementMessage)
    (hlt : sn.LastSeenRound < am.RoundNbr)
    (hal : allocationFails tp sn.RoundTypes am.RoundNbr = false) (h0 : 0 ≤ am.RoundNbr)
    (hlen : am.RoundNbr < ((growRoundTypes sn.RoundTypes am.RoundNbr).length : Int)) :
    admitSection tp sn am = (withRoundType sn am, SetupResult.nil) := by
  have hnot : ¬ am.RoundNbr ≤ sn.LastSeenRound := by omega
  simp [admitSection, hnot, hal, h0, hlen, withRoundType]

/-- A table already longer than the round number is not grown: nothing is
allocated. -/
theorem allocationFails_of_long (tp : Topology) (rts : List RoundType) (n : Int)
    (h : n < (rts.length : Int)) : allocationFails tp rts n = false := by
  have hl : ¬ (rts.length : Int) ≤ n := by omega
  simp [allocationFails, hl]

/-- C18 (failing interleaving): two calls of `RoundSetup` carry the same round
number, above the watermark of the node, and the table can be grown for it
(the allocations of line 108 succeed).  Under the schedule in which both
execute their first section under `roundmu` (the stale-round check) before
either executes its second (the update of `LastSeenRound`), both return nil:
the round number is admitted twice. -/
theorem C18_same_round_admitted_twice (tp : Topology) (view : Int) (sn : Node)
    (am1 am2 : AnnouncementMessage) (hcv : sn.ChangingView = false)
    (h0 : 0 ≤ sn.LastSeenRound) (hlt : sn.LastSeenRound < am1.RoundNbr)
    (hmax : am1.RoundNbr < maxInt64)
    (halloc : allocationFails tp sn.RoundTypes am1.RoundNbr = false)
    (hsame : am2.RoundNbr = am1.RoundNbr) :
    (runInterleaved tp view raceSchedule sn ⟨am1, Pc.viewCheck⟩ ⟨am2, Pc.viewCheck⟩).2 =
      (⟨am1, Pc.done SetupResult.nil⟩, ⟨am2, Pc.done SetupResult.nil⟩) := by
  have hg1 := viewChangeGuard_of_not_changing sn am1 hcv
  have hpos : 0 ≤ am1.RoundNbr := by omega
  have hlen1 := growRoundTypes_length_gt sn.RoundTypes am1.RoundNbr hpos hmax
  have ha1 := admitSection_accept tp sn am1 hlt halloc hpos hlen1
  have hg2 : viewChangeGuard (withRoundType sn am1) am2 = false :=
    viewChangeGuard_of_not_changing _ am2 hcv
  have hlong : am2.RoundNbr < ((withRoundType sn am1).RoundTypes.length : Int) := by
    rw [hsame]
    simpa [withRoundType] using hlen1
  have hlen2 : am2.RoundNbr <
      ((growRoundTypes (withRoundType sn am1).RoundTypes am2.RoundNbr).length : Int) := by
    rw [hsame]
    exact growRoundTypes_length_gt _ _ hpos hmax
  have ha2 := admitSection_accept tp (withRoundType sn am1) am2
    (by rw [hsame]; exact hlt) (allocationFails_of_long tp _ _ hlong)
    (by rw [hsame]; exact hpos) hlen2
  simp [runInterleaved, raceSchedule, stepCall, hg1, ha1, hg2, ha2]

/-- C18 (witness): two announcements of round 1 at a node that has admitted no
round yet. -/
theorem C18_same_round_admitted_twice_witness :
    (runInterleaved rootOnly 0 raceSchedule freshNode ⟨⟨1, none⟩, Pc.viewCheck⟩
        ⟨⟨1, none⟩, Pc.viewCheck⟩).2 =
      (⟨⟨1, none⟩, Pc.done SetupResult.nil⟩, ⟨⟨1, none⟩, Pc.done SetupResult.nil⟩) :=
  C18_same_round_admitted_twice rootOnly 0 freshNode ⟨1, none⟩ ⟨1, none⟩ rfl (by decide)
    (by decide) (by decide) (by decide) rfl

end Sign

namespace Sign

theorem runInterleaved_first (tp : Topology) (view : Int) (rest : List Bool) (c2 : Call) :
    ∀ (n : Nat) (sn : Node) (c1 : Call),
      runInterleaved tp view (List.replicate n false ++ rest) sn c1 c2 =
        runInterleaved tp view rest (runCall tp view n sn c1).1 (runCall tp view n sn c1).2 c2 := by
  intro n
  induction n with
  | zero => intro sn c1; rfl
  | succ n ih =>
    intro sn c1
    simp only [List.replicate_succ, List.cons_append, runInterleaved, runCall]
    exact ih _ _

theorem runInterleaved_second (tp : Topology) (view : Int) (rest : List Bool) (c1 : Call) :
    ∀ (n : Nat) (sn : Node) (c2 : Call),
      runInterleaved tp view (List.replicate n true ++ rest) sn c1 c2 =
        runInterleaved tp view rest (runCall tp view n sn c2).1 c1 (runCall tp view n sn c2).2 := by
  intro n
  induction n with
  | zero => intro sn c2; rfl
  | succ n ih =>
    intro sn c2
    simp only [List.replicate_succ, List.cons_append, runInterleaved, runCall]
    exact ih _ _

/-- Under the schedule in which the first call returns before the second
starts, the two calls are two calls of `RoundSetup` in a row. -/
theorem runInterleaved_sequential (tp : Topology) (view : Int) (sn : Node)
    (am1 am2 : AnnouncementMessage) :
    runInterleaved tp view sequentialSchedule sn ⟨am1, Pc.viewCheck⟩ ⟨am2, Pc.viewCheck⟩ =
      ((RoundSetup tp (RoundSetup tp sn view am1).1 view am2).1,
        ⟨am1, Pc.done (RoundSetup tp sn view am1).2⟩,
        ⟨am2, Pc.done (RoundSetup tp (RoundSetup tp sn view am1).1 view am2).2⟩) := by
  have hs : sequentialSchedule = List.replicate 5 false ++ (List.replicate 5 true ++ []) := rfl
  rw [hs, runInterleaved_first, runCall_eq_RoundSetup, runInterleaved_second,
    runCall_eq_RoundSetup]
  rfl

/-! ## `Round.Add` and `Round.Sub` -/

/-- C14 (failing input): `Add` is called with a nil accumulator and a point
`q`.  The sum of the identity and the element of `q` is written to a point
allocated inside the call; the accumulator the caller passed is nil as before
and holds no value, and no point that existed before the call has changed. -/
theorem C14_nil_accumulator_stays_nil {G : Type} [AddGroup G] (h : PointHeap G) (q : Nat) :
    valueOf (Add h none (some q)) none = none ∧
    (∀ k, k < h.next → (Add h none (some q)).cells k = h.cells k) ∧
    (q < h.next → (Add h none (some q)).cells h.next = h.cells q) ∧
    (Add h none (some q)).next = h.next + 1 := by
  refine ⟨rfl, ?_, ?_, rfl⟩
  · intro k hk
    have hne : k ≠ h.next := by omega
    simp [Add, PointHeap.allocNull, PointHeap.write, hne]
  · intro hq
    have hne : q ≠ h.next := by omega
    simp [Add, PointHeap.allocNull, PointHeap.write, hne]

/-- C14 (witness): the heap holds one point with the element 5; after
`Add(nil, q)` the caller's accumulator holds no value, the point `q` holds 5
and the sum 5 sits in the point allocated by the call. -/
theorem C14_nil_accumulator_stays_nil_witness :
    valueOf (Add onePoint none (some 0)) none = none ∧
    (Add onePoint none (some 0)).cells 0 = 5 ∧
    (Add onePoint none (some 0)).cells 1 = 5 :=
  ⟨(C14_nil_accumulator_stays_nil onePoint 0).1,
   (C14_nil_accumulator_stays_nil onePoint 0).2.1 0 (by decide),
   (C14_nil_accumulator_stays_nil onePoint 0).2.2.1 (by decide)⟩

/-- C15 (amended): for every point `a`, `Add(a, nil)` and `Sub(a, nil)` leave
the heap, and with it the element of `a`, unchanged; for all points `a` and
`b`, `Add(a, b)` sets `a` to `a + b` and `Sub(a, b)` sets `a` to `a - b`; and
when `a` and `b` are different points, `Sub(a, b)` after `Add(a, b)` restores
the element `a` had. -/
theorem C15_add_then_sub_restores {G : Type} [AddGroup G] (h : PointHeap G) (a b : Nat) :
    Add h (some a) none = h ∧ Sub h (some a) none = h ∧
    (Add h (some a) (some b)).cells a = h.cells a + h.cells b ∧
    (Sub h (some a) (some b)).cells a = h.cells a - h.cells b ∧
    (a ≠ b → (Sub (Add h (some a) (some b)) (some a) (some b)).cells a = h.cells a) := by
  refine ⟨rfl, rfl, ?_, ?_, ?_⟩
  · simp [Add, PointHeap.write]
  · simp [Sub, PointHeap.write]
  · intro hab
    have hba : ¬ b = a := fun e => hab e.symm
    simp [Add, Sub, PointHeap.write, hba]

/-- C15 (witness): two points holding 5 and 7. -/
theorem C15_add_then_sub_restores_witness :
    (Sub (Add (⟨fun k => if k = 0 then 5 else 7, 2⟩ : PointHeap Int) (some 0) (some 1))
        (some 0) (some 1)).cells 0 = 5 :=
  (C15_add_then_sub_restores (⟨fun k => if k = 0 then 5 else 7, 2⟩ : PointHeap Int) 0 1).2.2.2.2
    (by decide)

/-- C15 (counterexample): `a` and `b` are the same point, holding 5.
`Add(a, b)` sets it to 10, and `Sub(a, b)` then sets it to 0, not back to 5. -/
theorem C15_same_point_not_restored :
    onePoint.cells 0 = 5 ∧
    (Add onePoint (some 0) (some 0)).cells 0 = 10 ∧
    (Sub (Add onePoint (some 0) (some 0)) (some 0) (some 0)).cells 0 = 0 := by
  decide

end Sign

namespace Skipchain

/-! ## Forward signatures -/

theorem setForwardHash_at_length (fl : List BlockLink) (h : SkipBlockID) :
    setForwardHash fl fl.length h = none := by
  simp [setForwardHash]

/-- Line 279 indexes `current.ForwardLink` at its own length: no call of
`ForwardSignature` returns a block. -/
theorem ForwardSignature_never_ok (env : Env) (s : Service) (updating : ForwardSignatureRequest)
    (b : SkipBlock) : (ForwardSignature env s updating).2 ≠ Outcome.ok b := by
  unfold ForwardSignature
  cases hT : s.SkipBlocks updating.ToUpdate with
  | none => simp
  | some current =>
    simp only
    split
    · simp
    · split
      · simp
      · split
        · rename_i hz
          split
          · simp
          · split
            · simp
            · have hz2 : setForwardHash ([] : List BlockLink) current.ForwardLink.length
                  updating.Latest.Hash = none := by
                rw [hz]; exact setForwardHash_at_length [] _
              simp [hz2]
        · split
          · simp
          · simp [setForwardHash_at_length]

/-- C11 (failing input): the target block is stored and has no forward link,
the candidate's signature verifies, its `BackLink` contains the target's
`Hash`, and the verifier policy accepts it.  `ForwardSignature` then allocates
a forward-link slice of length 0 (line 265) and indexes it at 0 (line 279): it
ends in the run-time panic of an out-of-range index (or, for a `Height` that
is negative or beyond the slice limit, in the panic of `make`), and returns no
block. -/
theorem C11_direct_extension_panics (env : Env) (s : Service) (updating : ForwardSignatureRequest)
    (target : SkipBlock) (hT : s.SkipBlocks updating.ToUpdate = some target)
    (hfl : target.ForwardLink = []) (hsig : env.VerifySignatures updating.Latest = true)
    (hbl : target.Hash ∈ updating.Latest.BackLink)
    (hver : verifyNewSkipBlock target updating.Latest = true) :
    (0 ≤ target.Height → target.Height ≤ sliceLimit env.maxSliceLen →
      (ForwardSignature env s updating).2 = Outcome.panic Panic.indexOutOfRange) ∧
    (target.Height < 0 ∨ sliceLimit env.maxSliceLen < target.Height →
      (ForwardSignature env s updating).2 = Outcome.panic Panic.makesliceCapOutOfRange) ∧
    ∀ b, (ForwardSignature env s updating).2 ≠ Outcome.ok b := by
  have hscan : scanBackLinks updating.Latest.BackLink target.Hash
      ≠ updating.Latest.BackLink.length := by
    unfold scanBackLinks
    apply ne_of_lt
    apply List.findIdx_lt_length_of_exists
    exact ⟨target.Hash, hbl, by simp⟩
  have hver2 : verifyNewSkipBlock { target with ForwardLink := [] } updating.Latest = true := by
    rw [verifyNewSkipBlock_iff] at hver ⊢
    exact ⟨hver.1, rfl⟩
  refine ⟨?_, ?_, fun b => ForwardSignature_never_ok env s updating b⟩
  · intro hh hcap
    have hh2 : ¬ (target.Height < 0 ∨ sliceLimit env.maxSliceLen < target.Height) := by omega
    simp only [not_or] at hh2
    simp [ForwardSignature, hT, hsig, hscan, hfl, hh2.1, hh2.2, hver2, setForwardHash]
  · intro hh
    simp [ForwardSignature, hT, hsig, hscan, hfl, hh]

/-- C11 (witness): the stored block `[2]` has no forward link; a signed
candidate under `VerifyNone` with the backlink `[2]` is offered for it. -/
theorem C11_direct_extension_panics_witness :
    (ForwardSignature sampleEnv shortChainService
        ⟨[2], { zeroBlock with BackLink := [[2]], Signature := [1], Hash := [3] }⟩).2
      = Outcome.panic Panic.indexOutOfRange :=
  (C11_direct_extension_panics sampleEnv shortChainService
    ⟨[2], { zeroBlock with BackLink := [[2]], Signature := [1], Hash := [3] }⟩
    { zeroBlock with Hash := [2] } rfl rfl rfl (by decide) (by decide)).1 (by decide)
    (by decide)

/-! ## Caller-supplied forward links -/

/-- C12 (failing input): a genesis proposal arrives with a forward link to
the hash `[9]`.  The block returned as `Latest` and stored under its own hash
carries that forward link at the moment of creation; so does the block
created from the same proposal as an extension of any block `pv`. -/
theorem C12_forward_link_of_proposal_kept (env : Env) (rnd : List Nat) (s : Service)
    (pv : SkipBlock) :
    (∃ s1 r e, proposeSkipBlock env rnd s [] (proposalLinkingTo [9]) = (s1, some r, e) ∧
      r.Latest.ForwardLink = [⟨[9], []⟩] ∧
      s1.SkipBlocks r.Latest.Hash = some r.Latest) ∧
    (updateNewSkipBlock env rnd s (some (pv.Hash, pv)) (proposalLinkingTo [9])).2.2.ForwardLink
      = [⟨[9], []⟩] := by
  refine ⟨⟨_, _, _, proposeSkipBlock_genesis env rnd s [] _ rfl, rfl, ?_⟩, rfl⟩
  rw [startPropagation_SkipBlocks]
  simp [store]

end Skipchain

namespace Skipchain

/-! ## The entry point for peers -/

/-- A call of `ProposeSkipBlock` with a non-empty `Latest` hash that is not in
the table fails and leaves the service as it was. -/
theorem ProposeSkipBlock_unknown_latest (env : Env) (rnd : List Nat) (s : Service)
    (latest : SkipBlockID) (Q : SkipBlock) (hl : latest ≠ [])
    (hs : s.SkipBlocks latest = none) :
    ProposeSkipBlock env rnd s ⟨latest, Q⟩ = (s, none, some SkipError.didntFindLatestBlock) := by
  have hn : IsNull latest = false := by simp [IsNull, hl]
  simp [ProposeSkipBlock, hn, getSkipBlockByID, hs]

/-- The unknown hash `[8]` is proposed against at the empty service. -/
theorem ProposeSkipBlock_unknown_latest_example :
    ProposeSkipBlock sampleEnv [] emptyService ⟨[8], zeroBlock⟩
      = (emptyService, none, some SkipError.didntFindLatestBlock) :=
  ProposeSkipBlock_unknown_latest sampleEnv [] emptyService [8] zeroBlock (by decide) rfl

/-- A call of `ProposeSkipBlock` through the branch of lines 83-91: for every
block `L` stored under a non-empty hash `L.Hash` and every proposed block `P`,
whatever `MaximumHeight`, `ParentBlock` and `VerifierId` the caller put in
`P`: if `ProposeSkipBlock` with `Latest = L.Hash` succeeds, the returned
`Latest` block has `MaximumHeight`, `ParentBlock` and `VerifierId` equal to
those of `L`. -/
theorem chain_parameters_inherited (env : Env) (rnd : List Nat) (s : Service)
    (L P : SkipBlock) (r : ProposedSkipBlockReply)
    (hL : s.SkipBlocks L.Hash = some L) (hne : L.Hash ≠ [])
    (hres : (ProposeSkipBlock env rnd s ⟨L.Hash, P⟩).2 = (some r, none)) :
    r.Latest.MaximumHeight = L.MaximumHeight ∧
    r.Latest.ParentBlock = L.ParentBlock ∧
    r.Latest.VerifierId = L.VerifierId := by
  have hnull : IsNull L.Hash = false := by simp [IsNull, hne]
  simp only [ProposeSkipBlock, hnull, getSkipBlockByID, hL, Bool.not_false, if_true] at hres
  by_cases hacc : L.VerifierId = VerifyNone ∧ L.ForwardLink = []
  · rw [proposeSkipBlock_accept env rnd s L.Hash L _ hne hL hacc.1 hacc.2] at hres
    generalize hP : ({ P with
        MaximumHeight := L.MaximumHeight
        ParentBlock := L.ParentBlock
        VerifierId := L.VerifierId } : SkipBlock) = P1 at hres
    rcases hrp : replyAndPropagate env
        (⟨store (store s.SkipBlocks L.Hash (linkedTo L (nextBlock env L P1).Hash))
          (nextBlock env L P1).Hash (nextBlock env L P1), s.sent⟩ : Service)
        (some (linkedTo L (nextBlock env L P1).Hash)) (nextBlock env L P1) with ⟨s1, ro, e⟩
    rw [hrp] at hres
    cases e with
    | some err => simp at hres
    | none =>
      cases ro with
      | none => simp at hres
      | some r1 =>
        obtain ⟨hr1, -⟩ := replyAndPropagate_reply _ _ _ _ _ _ _ hrp
        simp only [Option.map_some', Prod.mk.injEq, Option.some.injEq, and_true] at hres
        subst hres
        subst hr1
        subst hP
        exact ⟨rfl, rfl, rfl⟩
  · rw [proposeSkipBlock_reject env rnd s L.Hash L _ hne hL hacc] at hres
    simp at hres

/-- The stored block `[1]` has `MaximumHeight = 4`; the proposal arrives with
`MaximumHeight = 9` and the created block has `MaximumHeight = 4`. -/
theorem chain_parameters_inherited_example :
    (ProposeSkipBlock sampleEnv []
        ⟨store (fun _ => none) [1] { zeroBlock with Hash := [1], MaximumHeight := 4 }, []⟩
        ⟨[1], { zeroBlock with MaximumHeight := 9 }⟩).2
      = (some ⟨some (linkedTo { zeroBlock with Hash := [1], MaximumHeight := 4 } [1, 0, 1]),
          nextBlock sampleEnv { zeroBlock with Hash := [1], MaximumHeight := 4 }
            { zeroBlock with MaximumHeight := 4 }⟩, none) ∧
    (nextBlock sampleEnv { zeroBlock with Hash := [1], MaximumHeight := 4 }
        { zeroBlock with MaximumHeight := 4 }).MaximumHeight = 4 :=
  ⟨by decide,
   (chain_parameters_inherited sampleEnv []
    ⟨store (fun _ => none) [1] { zeroBlock with Hash := [1], MaximumHeight := 4 }, []⟩
    { zeroBlock with Hash := [1], MaximumHeight := 4 } { zeroBlock with MaximumHeight := 9 }
    ⟨some (linkedTo { zeroBlock with Hash := [1], MaximumHeight := 4 } [1, 0, 1]),
      nextBlock sampleEnv { zeroBlock with Hash := [1], MaximumHeight := 4 }
        { zeroBlock with MaximumHeight := 4 }⟩
    (by decide) (by decide) (by decide)).1⟩

/-- C13 (failing input): the table holds a block `L` with `MaximumHeight = 4`
and an empty `Hash` under the empty key.  `ProposeSkipBlock` with
`Latest = L.Hash` does not return the error that the doc comment of
`proposeSkipBlock` announces for a nil hash when blocks exist: it succeeds as
a genesis creation and returns a block with the `MaximumHeight` of the
proposal, 9, not that of `L`. -/
theorem C13_empty_hash_inherits_nothing :
    (store (fun _ => none) [] { zeroBlock with MaximumHeight := 4 })
        ({ zeroBlock with MaximumHeight := 4 } : SkipBlock).Hash
      = some { zeroBlock with MaximumHeight := 4 } ∧
    (ProposeSkipBlock sampleEnv []
        ⟨store (fun _ => none) [] { zeroBlock with MaximumHeight := 4 }, []⟩
        ⟨({ zeroBlock with MaximumHeight := 4 } : SkipBlock).Hash,
          { zeroBlock with MaximumHeight := 9 }⟩).2
      = (some ⟨none, genesisBlock sampleEnv [] { zeroBlock with MaximumHeight := 9 }⟩, none) ∧
    (genesisBlock sampleEnv [] { zeroBlock with MaximumHeight := 9 }).MaximumHeight = 9 := by
  decide

/-! ## Propagation failure -/

/-- The loop of `startPropagation` stops at the first entity the send to which
fails: the entities before it have been sent the block, no other. -/
theorem propagateTo_fails_at (env : Env) (b : SkipBlock) (e : Entity) (post : List Entity)
    (c : Nat) (hmsg : env.CreateServiceMessage b = none) (hfail : env.SendRaw e b = some c) :
    ∀ (pre : List Entity) (s : Service), (∀ x ∈ pre, env.SendRaw x b = none) →
      propagateTo env b (pre ++ e :: post) s =
        (⟨s.SkipBlocks, s.sent ++ pre.map (fun x => (x, b))⟩, some (SkipError.transport c)) := by
  intro pre
  induction pre with
  | nil =>
    intro s _
    simp [propagateTo, hmsg, hfail]
  | cons x pre ih =>
    intro s hpre
    have hx : env.SendRaw x b = none := hpre x (List.mem_cons_self _ _)
    simp only [List.cons_append, propagateTo, hmsg, hx]
    exact (ih _ (fun y hy => hpre y (List.mem_cons_of_mem _ hy))).trans (by simp)

/-- C17: a non-genesis proposal whose predecessor `pv` is found and accepted
by the verifier policy, with a roster `pre ++ e :: post` in which the send to
`e` is the first that fails.  `proposeSkipBlock` returns that transport error
and no reply; the table is the old one with the predecessor, now carrying the
forward link to the new block, written under `latest` and then the new block
written under its hash; and the block has been sent to the entities of `pre`
only. -/
theorem C17_propagation_failure_after_store (env : Env) (rnd : List Nat) (s : Service)
    (latest : SkipBlockID) (pv proposed : SkipBlock) (pre post : List Entity) (e : Entity)
    (c : Nat) (hne : latest ≠ []) (hpv : s.SkipBlocks latest = some pv)
    (hacc : verifyNewSkipBlock pv { proposed with VerifierId := pv.VerifierId } = true)
    (hroster : proposed.EntityList = pre ++ e :: post)
    (hmsg : env.CreateServiceMessage (nextBlock env pv proposed) = none)
    (hpre : ∀ x ∈ pre, env.SendRaw x (nextBlock env pv proposed) = none)
    (hfail : env.SendRaw e (nextBlock env pv proposed) = some c) :
    (proposeSkipBlock env rnd s latest proposed).2 = (none, some (SkipError.transport c)) ∧
    (proposeSkipBlock env rnd s latest proposed).1.SkipBlocks =
      store (store s.SkipBlocks latest (linkedTo pv (nextBlock env pv proposed).Hash))
        (nextBlock env pv proposed).Hash (nextBlock env pv proposed) ∧
    (proposeSkipBlock env rnd s latest proposed).1.SkipBlocks (nextBlock env pv proposed).Hash
      = some (nextBlock env pv proposed) ∧
    (linkedTo pv (nextBlock env pv proposed).Hash).ForwardLink.map (fun l => l.Hash)
      = [(nextBlock env pv proposed).Hash] ∧
    ((nextBlock env pv proposed).Hash ≠ latest →
      (proposeSkipBlock env rnd s latest proposed).1.SkipBlocks latest
        = some (linkedTo pv (nextBlock env pv proposed).Hash)) ∧
    (proposeSkipBlock env rnd s latest proposed).1.sent =
      s.sent ++ pre.map (fun x => (x, nextBlock env pv proposed)) := by
  obtain ⟨hv, hf⟩ := (verifyNewSkipBlock_iff _ _).1 hacc
  have hfl : pv.ForwardLink = [] := List.length_eq_zero.1 hf
  rw [proposeSkipBlock_accept env rnd s latest pv proposed hne hpv hv hfl]
  generalize hnb : nextBlock env pv proposed = nb at *
  have hr : nb.EntityList = pre ++ e :: post := by rw [← hnb]; exact hroster
  have hprop := propagateTo_fails_at env nb e post c hmsg hfail pre
    (⟨store (store s.SkipBlocks latest (linkedTo pv nb.Hash)) nb.Hash nb, s.sent⟩ : Service) hpre
  have hout : replyAndPropagate env
      (⟨store (store s.SkipBlocks latest (linkedTo pv nb.Hash)) nb.Hash nb, s.sent⟩ : Service)
      (some (linkedTo pv nb.Hash)) nb
      = (⟨store (store s.SkipBlocks latest (linkedTo pv nb.Hash)) nb.Hash nb,
          s.sent ++ pre.map (fun x => (x, nb))⟩, none, some (SkipError.transport c)) := by
    simp only [replyAndPropagate, startPropagation, hr, hprop]
  rw [hout]
  refine ⟨rfl, rfl, by simp [store], rfl, ?_, rfl⟩
  intro hd
  have hd2 : ¬ latest = nb.Hash := fun h => hd h.symm
  simp [store, hd2]

end Skipchain

namespace Skipchain

/-- C17 (witness): the stored block `[1]` is extended by a block with the
roster 1, 2, 3; the send to the entity 2 fails.  The call returns the
transport error, the new block is stored, and only the entity 1 has been sent
the block. -/
theorem C17_propagation_failure_after_store_witness :
    (proposeSkipBlock lossyEnv []
        ⟨store (fun _ => none) [1] { zeroBlock with Hash := [1] }, []⟩ [1]
        { zeroBlock with EntityList := [1, 2, 3] }).2
      = (none, some (SkipError.transport 7)) ∧
    (proposeSkipBlock lossyEnv []
        ⟨store (fun _ => none) [1] { zeroBlock with Hash := [1] }, []⟩ [1]
        { zeroBlock with EntityList := [1, 2, 3] }).1.SkipBlocks [1, 0, 1]
      = some (nextBlock lossyEnv { zeroBlock with Hash := [1] }
          { zeroBlock with EntityList := [1, 2, 3] }) ∧
    (proposeSkipBlock lossyEnv []
        ⟨store (fun _ => none) [1] { zeroBlock with Hash := [1] }, []⟩ [1]
        { zeroBlock with EntityList := [1, 2, 3] }).1.sent
      = [(1, nextBlock lossyEnv { zeroBlock with Hash := [1] }
          { zeroBlock with EntityList := [1, 2, 3] })] := by
  have h := C17_propagation_failure_after_store lossyEnv []
    ⟨store (fun _ => none) [1] { zeroBlock with Hash := [1] }, []⟩ [1]
    { zeroBlock with Hash := [1] } { zeroBlock with EntityList := [1, 2, 3] } [1] [3] 2 7
    (by decide) (by decide) (by decide) rfl rfl (by decide) rfl
  exact ⟨h.1, h.2.2.1, h.2.2.2.2.2⟩

end Skipchain

end Cothority
